import Mathlib

/-!
# PCSX2 boot core: ELF image loader, configuration model and capability probe

A shallow embedding of `pcsx2/Elfheader.cpp`, `pcsx2/Pcsx2Config.cpp` and
`common/src/x86emitter/cpudetect.cpp`.

* The image buffer (`SafeArray<u8> data`) is a list of bytes.  Pointers into the
  buffer (`proghead`, `secthead`, `srcdata`, `eS`, `SymNames`) are byte offsets,
  `NULL` is `none`.
* Every read through such a pointer is bounds checked: a read that leaves the
  buffer (or goes through `NULL`) is the result `none`.
* The constructor is the exception: no read raises in C++, so there the header
  reads are unchecked (`initElfHeaders_raw`) and a read that leaves the buffer
  yields whatever memory follows it.
* Machine integers are naturals; wrap-around is written `% 2 ^ w` where the
  C++ type makes it happen.
-/

namespace Pcsx2

/-! ## Bytes and little-endian reads -/

/-- One byte of the image buffer (`u8`). -/
abbrev u8 := Fin 256

/-- The byte stored at offset `i`, as a number (0 beyond the buffer; every use is
behind a bounds check). -/
def byteAt (d : List u8) (i : Nat) : Nat := (d.getD i 0).val

/-- The 16-bit little-endian value stored at offset `off`. -/
def u16At (d : List u8) (off : Nat) : Nat :=
  byteAt d off + 256 * byteAt d (off + 1)

/-- The 32-bit little-endian value stored at offset `off`. -/
def u32At (d : List u8) (off : Nat) : Nat :=
  byteAt d off + 256 * byteAt d (off + 1) + 65536 * byteAt d (off + 2)
    + 16777216 * byteAt d (off + 3)

/-- Bounds-checked read of a `u8` field. -/
def readU8 (d : List u8) (off : Nat) : Option Nat :=
  if off + 1 ≤ d.length then some (byteAt d off) else none

/-- Bounds-checked read of a `u16` field. -/
def readU16 (d : List u8) (off : Nat) : Option Nat :=
  if off + 2 ≤ d.length then some (u16At d off) else none

/-- Bounds-checked read of a `u32` field. -/
def readU32 (d : List u8) (off : Nat) : Option Nat :=
  if off + 4 ≤ d.length then some (u32At d off) else none

/-! ## Structure layout

`Elfheader.h`, which declares `ELF_HEADER`, `ELF_PHR`, `ELF_SHR` and `Elf32_Sym`,
is not part of the sources at hand.  The byte offset of every field the code
touches and the three `sizeof` values are therefore parameters.  The field
widths are those the code shows: `e_phnum`, `e_shnum`, `e_shstrndx` are 16 bit
(`e_shstrndx` is compared with `0xffff`), `st_info` is one byte, every other
field is a `u32`. -/

/-- Field offsets and structure sizes of the ELF declarations. -/
structure ElfLayout where
  e_entry : Nat
  e_phoff : Nat
  e_shoff : Nat
  e_phnum : Nat
  e_shnum : Nat
  e_shstrndx : Nat
  sizeof_ELF_PHR : Nat
  p_vaddr : Nat
  p_memsz : Nat
  sizeof_ELF_SHR : Nat
  sh_type : Nat
  sh_offset : Nat
  sh_size : Nat
  sh_link : Nat
  sizeof_Elf32_Sym : Nat
  st_name : Nat
  st_value : Nat
  st_info : Nat

/-- The ELF32 layout of the System V ABI (52-byte header, 32-byte program header,
40-byte section header, 16-byte symbol). -/
def elf32 : ElfLayout where
  e_entry := 24
  e_phoff := 28
  e_shoff := 32
  e_phnum := 44
  e_shnum := 48
  e_shstrndx := 50
  sizeof_ELF_PHR := 32
  p_vaddr := 8
  p_memsz := 20
  sizeof_ELF_SHR := 40
  sh_type := 4
  sh_offset := 16
  sh_size := 20
  sh_link := 24
  sizeof_Elf32_Sym := 16
  st_name := 0
  st_value := 4
  st_info := 12

/-- A layout is well formed when every field lies inside its structure and the
structure sizes are positive 32-bit values. -/
def ElfLayout.WF (L : ElfLayout) : Prop :=
  0 < L.sizeof_ELF_PHR ∧ L.sizeof_ELF_PHR < 2 ^ 32 ∧
  L.p_vaddr + 4 ≤ L.sizeof_ELF_PHR ∧ L.p_memsz + 4 ≤ L.sizeof_ELF_PHR ∧
  0 < L.sizeof_ELF_SHR ∧ L.sizeof_ELF_SHR < 2 ^ 32 ∧
  L.sh_type + 4 ≤ L.sizeof_ELF_SHR ∧ L.sh_offset + 4 ≤ L.sizeof_ELF_SHR ∧
  L.sh_size + 4 ≤ L.sizeof_ELF_SHR ∧ L.sh_link + 4 ≤ L.sizeof_ELF_SHR ∧
  0 < L.sizeof_Elf32_Sym ∧ L.sizeof_Elf32_Sym < 2 ^ 32 ∧
  L.st_name + 4 ≤ L.sizeof_Elf32_Sym ∧ L.st_value + 4 ≤ L.sizeof_Elf32_Sym ∧
  L.st_info + 1 ≤ L.sizeof_Elf32_Sym

instance (L : ElfLayout) : Decidable L.WF := by
  unfold ElfLayout.WF; infer_instance

/-! ## ElfObject -/

/-- The members of `ElfObject` the functions below use.  `header` is a reference
to the start of `data`, so header fields are reads of `data` at the field offset. -/
structure ElfObject where
  data : List u8
  proghead : Option Nat
  secthead : Option Nat
deriving DecidableEq, Repr

/-- The object as the constructor's initialiser list leaves it:
`proghead( NULL ), secthead( NULL )`. -/
def ElfObject.init (d : List u8) : ElfObject := ⟨d, none, none⟩

/-- `ElfObject::initElfHeaders`.  `sizeof` is a 64-bit `size_t`, so the sum is
taken modulo `2 ^ 64`. -/
def initElfHeaders (L : ElfLayout) (o : ElfObject) : Option ElfObject := do
  let phnum ← readU16 o.data L.e_phnum
  let o1 ←
    if phnum > 0 then do
      let phoff ← readU32 o.data L.e_phoff
      if (phoff + L.sizeof_ELF_PHR) % 2 ^ 64 ≤ o.data.length then
        pure { o with proghead := some phoff }
      else pure o
    else pure o
  let shnum ← readU16 o1.data L.e_shnum
  if shnum > 0 then do
    let shoff ← readU32 o1.data L.e_shoff
    if (shoff + L.sizeof_ELF_SHR) % 2 ^ 64 ≤ o1.data.length then
      pure { o1 with secthead := some shoff }
    else pure o1
  else pure o1

/-- `ElfObject::hasProgramHeaders`. -/
def hasProgramHeaders (o : ElfObject) : Bool := o.proghead != none

/-- `ElfObject::hasSectionHeaders`. -/
def hasSectionHeaders (o : ElfObject) : Bool := o.secthead != none

/-- `ElfObject::hasHeaders`. -/
def hasHeaders (o : ElfObject) : Bool := hasProgramHeaders o && hasSectionHeaders o

/-- The loop of `ElfObject::getTextRange`: the first argument counts the
iterations left (`e_phnum - i`), the second is `i`.  `start+size` is `u32`
arithmetic. -/
def getTextRangeLoop (L : ElfLayout) (o : ElfObject) : Nat → Nat → Option (Nat × Nat)
  | 0, _ => some (0, 0)
  | n + 1, i => do
    let ph ← o.proghead
    let start ← readU32 o.data (ph + i * L.sizeof_ELF_PHR + L.p_vaddr)
    let size ← readU32 o.data (ph + i * L.sizeof_ELF_PHR + L.p_memsz)
    let entry ← readU32 o.data L.e_entry
    if start ≤ entry ∧ (start + size) % 2 ^ 32 > entry then
      some (start, size)
    else getTextRangeLoop L o n (i + 1)

/-- `ElfObject::getTextRange`. -/
def getTextRange (L : ElfLayout) (o : ElfObject) : Option (Nat × Nat) := do
  let phnum ← readU16 o.data L.e_phnum
  getTextRangeLoop L o phnum 0

/-- The loop of `ElfObject::getCRC`: iterations left `i`, the offset `srcdata`
points at, and the running `CRC`. -/
def getCRCLoop (d : List u8) : Nat → Nat → Nat → Option Nat
  | 0, _, crc => some crc
  | i + 1, srcdata, crc => do
    let w ← readU32 d srcdata
    getCRCLoop d i (srcdata + 4) (crc ^^^ w)

/-- `ElfObject::getCRC`; the counter is a `u32`. -/
def getCRC (o : ElfObject) : Option Nat :=
  getCRCLoop o.data (o.data.length / 4 % 2 ^ 32) 0 0

/-- One `symbolMap.AddLabel(name, address)` call.  `name` is the offset in the
buffer the `const char*` argument points at. -/
structure Label where
  name : Nat
  address : Nat
deriving DecidableEq, Repr

/-- Conversion of a `u32` value to `int`. -/
def toInt32 (x : Nat) : Int :=
  if x % 2 ^ 32 < 2 ^ 31 then ((x % 2 ^ 32 : Nat) : Int)
  else ((x % 2 ^ 32 : Nat) : Int) - 2 ^ 32

/-- The section scan of `ElfObject::loadSectionHeaders`: iterations left
(`e_shnum - i`), `i`, and the current `(i_st, i_dt)`. -/
def sectionScan (L : ElfLayout) (d : List u8) (sh : Nat) :
    Nat → Nat → Int × Int → Option (Int × Int)
  | 0, _, acc => some acc
  | n + 1, i, acc => do
    let ty ← readU32 d (sh + i * L.sizeof_ELF_SHR + L.sh_type)
    if ty = 2 then do
      let link ← readU32 d (sh + i * L.sizeof_ELF_SHR + L.sh_link)
      sectionScan L d sh n (i + 1) ((i : Int), toInt32 link)
    else sectionScan L d sh n (i + 1) acc

/-- The symbol loop of `ElfObject::loadSectionHeaders`: iterations left and `i`;
the result lists the `AddLabel` calls in the order they are made.  `&&` reads
`st_info` only when `st_value` is non-zero; `ELF32_ST_TYPE(i)` is the low nibble
`i & 0xf`. -/
def symbolLoop (L : ElfLayout) (d : List u8) (eS symNames : Nat) :
    Nat → Nat → Option (List Label)
  | 0, _ => some []
  | n + 1, i => do
    let value ← readU32 d (eS + i * L.sizeof_Elf32_Sym + L.st_value)
    if value ≠ 0 then do
      let info ← readU8 d (eS + i * L.sizeof_Elf32_Sym + L.st_info)
      if info % 16 = 2 then do
        let name ← readU32 d (eS + i * L.sizeof_Elf32_Sym + L.st_name)
        let rest ← symbolLoop L d eS symNames n (i + 1)
        some (⟨symNames + name, value⟩ :: rest)
      else symbolLoop L d eS symNames n (i + 1)
    else symbolLoop L d eS symNames n (i + 1)

/-- `ElfObject::loadSectionHeaders`, returning the sequence of `AddLabel` calls.
`data.GetPtr(off)` only forms the address `data + off`; `sections_names` is never
dereferenced. -/
def loadSectionHeaders (L : ElfLayout) (o : ElfObject) : Option (List Label) :=
  match o.secthead with
  | none => some []
  | some sh => do
    let shoff ← readU32 o.data L.e_shoff
    if shoff > o.data.length % 2 ^ 32 then some []
    else do
      let strndx ← readU16 o.data L.e_shstrndx
      let _sections_names ← readU32 o.data
        (sh + (if strndx = 0xffff then 0 else strndx) * L.sizeof_ELF_SHR + L.sh_offset)
      let shnum ← readU16 o.data L.e_shnum
      let (i_st, i_dt) ← sectionScan L o.data sh shnum 0 (-1, -1)
      if i_st ≥ 0 ∧ i_dt ≥ 0 then do
        let symNames ← readU32 o.data (sh + i_dt.toNat * L.sizeof_ELF_SHR + L.sh_offset)
        let eS ← readU32 o.data (sh + i_st.toNat * L.sizeof_ELF_SHR + L.sh_offset)
        let size ← readU32 o.data (sh + i_st.toNat * L.sizeof_ELF_SHR + L.sh_size)
        symbolLoop L o.data eS symNames (size / L.sizeof_Elf32_Sym - 1) 1
      else some []

/-! ## Construction -/

/-- How construction of an `ElfObject` can end without an object: the two
exceptions `Elfheader.cpp` throws, and the failure to construct the buffer
`data`. -/
inductive ElfError
  | BadStream
  | EndOfStream
  | OutOfMemory
deriving DecidableEq, Repr

/-- The `diagMsg` chosen by `ElfObject::checkElfSize`. -/
def checkElfSize_diagMsg (elfsize : Int) : Option String :=
  if elfsize > 0xfffffff then some "Illegal ELF file size over 2GB!"
  else if elfsize = -1 then some "ELF file does not exist!"
  else if elfsize = 0 then some "Unexpected end of ELF file."
  else none

/-- `ElfObject::checkElfSize`. -/
def checkElfSize (elfsize : Int) : Except ElfError Unit :=
  match checkElfSize_diagMsg elfsize with
  | some _ => throw ElfError.BadStream
  | none => pure ()

/-- Modelled from the spec: `IsoFile::read` is not in the sources; the byte
source exposes `read(buffer, length) -> bytesRead`.  A source is the list of
bytes it has left to deliver; `read` delivers at most `length` of them. -/
def IsoFile_read (file : List u8) (length : Int) : List u8 :=
  file.take length.toNat

/-- `ElfObject::readIso` on a buffer of `size` bytes: the filled buffer, or
`EndOfStream` when `rsize < data.GetSizeInBytes()`. -/
def readIso (file : List u8) (size : Int) : Except ElfError (List u8) :=
  let got := IsoFile_read file size
  if ((got.length : Nat) : Int) < size then throw ElfError.EndOfStream
  else pure got

/-- Modelled from the spec: `SafeArray<u8>`, the "owned byte buffer + length",
is not in the sources at hand.  The initialiser `data( size )` on line 30
constructs the buffer before the constructor body runs; `alloc size` tells
whether that construction yields the buffer, and when it does not, construction
of the object ends there, before `checkElfSize`. -/
def SafeArray_ctor (alloc : Int → Bool) (size : Int) : Except ElfError Unit :=
  if alloc size then pure () else throw ElfError.OutOfMemory

/-- An unchecked read of the byte at offset `i` from the start of the buffer:
inside the buffer its byte, outside it the byte `beyond i` of whatever memory
follows the buffer.  Such a read raises nothing. -/
def rawByteAt (d : List u8) (beyond : Nat → u8) (i : Nat) : Nat :=
  if i < d.length then byteAt d i else (beyond i).val

/-- An unchecked read of a `u16` field. -/
def rawU16At (d : List u8) (beyond : Nat → u8) (off : Nat) : Nat :=
  rawByteAt d beyond off + 256 * rawByteAt d beyond (off + 1)

/-- An unchecked read of a `u32` field. -/
def rawU32At (d : List u8) (beyond : Nat → u8) (off : Nat) : Nat :=
  rawByteAt d beyond off + 256 * rawByteAt d beyond (off + 1)
    + 65536 * rawByteAt d beyond (off + 2) + 16777216 * rawByteAt d beyond (off + 3)

/-- `ElfObject::initElfHeaders` as the constructor runs it: the header fields
are read without a bounds check, so the function always returns.  It yields the
object of `initElfHeaders` whenever the reads stay inside the buffer. -/
def initElfHeaders_raw (L : ElfLayout) (beyond : Nat → u8) (o : ElfObject) : ElfObject :=
  let phnum := rawU16At o.data beyond L.e_phnum
  let o1 :=
    if phnum > 0 then
      let phoff := rawU32At o.data beyond L.e_phoff
      if (phoff + L.sizeof_ELF_PHR) % 2 ^ 64 ≤ o.data.length then
        { o with proghead := some phoff }
      else o
    else o
  let shnum := rawU16At o1.data beyond L.e_shnum
  if shnum > 0 then
    let shoff := rawU32At o1.data beyond L.e_shoff
    if (shoff + L.sizeof_ELF_SHR) % 2 ^ 64 ≤ o1.data.length then
      { o1 with secthead := some shoff }
    else o1
  else o1

/-- The constructor `ElfObject::ElfObject(srcfile, isofile)`.  `size` is the
value of `wxULongLong(isofile.getLength()).GetLo()` as the `int` the buffer
`data` is constructed with on line 30, which `data.GetSizeInBytes()` returns;
then `checkElfSize`, `readIso` and `initElfHeaders` run.  The only ways out
without an object are the exceptions. -/
def ElfObject.ctor (L : ElfLayout) (alloc : Int → Bool) (beyond : Nat → u8) (file : List u8)
    (size : Int) : Except ElfError ElfObject := do
  SafeArray_ctor alloc size
  checkElfSize size
  let data ← readIso file size
  pure (initElfHeaders_raw L beyond (ElfObject.init data))

/-! ## Configuration model (`Pcsx2Config.cpp`)

`Config.h`, which declares the option structures as bit-fields sharing storage
with `bitset`, is not part of the sources at hand.  Each flag the code names is
a boolean field; `bitset = 0` clears every flag. -/

/-- `Pcsx2Config::RecompilerOptions`.  `otherBits` stands for the bits of
`bitset` that no function of `Pcsx2Config.cpp` names. -/
structure RecompilerOptions where
  EnableEE : Bool
  EnableIOP : Bool
  EnableVU0 : Bool
  EnableVU1 : Bool
  vuOverflow : Bool
  vuExtraOverflow : Bool
  vuSignOverflow : Bool
  vuUnderflow : Bool
  fpuOverflow : Bool
  fpuExtraOverflow : Bool
  fpuFullMode : Bool
  otherBits : Nat
deriving DecidableEq, Repr

/-- The default constructor `RecompilerOptions::RecompilerOptions()`. -/
def RecompilerOptions.ctor : RecompilerOptions where
  EnableEE := true
  EnableIOP := true
  EnableVU0 := true
  EnableVU1 := true
  vuOverflow := true
  vuExtraOverflow := false
  vuSignOverflow := false
  vuUnderflow := false
  fpuOverflow := true
  fpuExtraOverflow := false
  fpuFullMode := false
  otherBits := 0

/-- `RecompilerOptions::ApplySanityCheck`. -/
def RecompilerOptions.ApplySanityCheck (s : RecompilerOptions) : RecompilerOptions :=
  let fpuIsRight := true
  let fpuIsRight := if s.fpuExtraOverflow then s.fpuOverflow else fpuIsRight
  let fpuIsRight := if s.fpuFullMode then s.fpuOverflow && s.fpuExtraOverflow else fpuIsRight
  let s :=
    if !fpuIsRight then
      { s with
        fpuOverflow := RecompilerOptions.ctor.fpuOverflow
        fpuExtraOverflow := RecompilerOptions.ctor.fpuExtraOverflow
        fpuFullMode := RecompilerOptions.ctor.fpuFullMode }
    else s
  let vuIsOk := true
  let vuIsOk := if s.vuExtraOverflow then vuIsOk && s.vuOverflow else vuIsOk
  let vuIsOk := if s.vuSignOverflow then vuIsOk && s.vuExtraOverflow else vuIsOk
  if !vuIsOk then
    { s with
      vuOverflow := RecompilerOptions.ctor.vuOverflow
      vuExtraOverflow := RecompilerOptions.ctor.vuExtraOverflow
      vuSignOverflow := RecompilerOptions.ctor.vuSignOverflow
      vuUnderflow := RecompilerOptions.ctor.vuUnderflow }
  else s

/-- The enumeration `GamefixId`, in the order of `tbl_GamefixNames` and of the
`switch` statements. -/
inductive GamefixId
  | Fix_VuAddSub
  | Fix_FpuCompare
  | Fix_FpuMultiply
  | Fix_FpuNegDiv
  | Fix_XGKick
  | Fix_IpuWait
  | Fix_EETiming
  | Fix_SkipMpeg
  | Fix_OPHFlag
  | Fix_DMABusy
  | Fix_VIFFIFO
  | Fix_VIF1Stall
  | Fix_GIFFIFO
  | Fix_FMVinSoftware
  | Fix_GoemonTlbMiss
  | Fix_Ibit
  | Fix_VUKickstart
deriving DecidableEq, Repr

/-- `Pcsx2Config::GamefixOptions`: one flag per hack. -/
structure GamefixOptions where
  VuAddSubHack : Bool
  FpuCompareHack : Bool
  FpuMulHack : Bool
  FpuNegDivHack : Bool
  XgKickHack : Bool
  IPUWaitHack : Bool
  EETimingHack : Bool
  SkipMPEGHack : Bool
  OPHFlagHack : Bool
  DMABusyHack : Bool
  VIFFIFOHack : Bool
  VIF1StallHack : Bool
  GIFFIFOHack : Bool
  FMVinSoftwareHack : Bool
  GoemonTlbHack : Bool
  IbitHack : Bool
  VUKickstartHack : Bool
deriving DecidableEq, Repr

/-- `GamefixOptions::DisableAll`: `bitset = 0`. -/
def GamefixOptions.DisableAll (_s : GamefixOptions) : GamefixOptions :=
  ⟨false, false, false, false, false, false, false, false, false, false, false, false,
    false, false, false, false, false⟩

open GamefixId in
/-- `GamefixOptions::Set( GamefixId id, bool enabled )`. -/
def GamefixOptions.Set (s : GamefixOptions) (id : GamefixId) (enabled : Bool) :
    GamefixOptions :=
  match id with
  | Fix_VuAddSub => { s with VuAddSubHack := enabled }
  | Fix_FpuCompare => { s with FpuCompareHack := enabled }
  | Fix_FpuMultiply => { s with FpuMulHack := enabled }
  | Fix_FpuNegDiv => { s with FpuNegDivHack := enabled }
  | Fix_XGKick => { s with XgKickHack := enabled }
  | Fix_IpuWait => { s with IPUWaitHack := enabled }
  | Fix_EETiming => { s with EETimingHack := enabled }
  | Fix_SkipMpeg => { s with SkipMPEGHack := enabled }
  | Fix_OPHFlag => { s with OPHFlagHack := enabled }
  | Fix_DMABusy => { s with DMABusyHack := enabled }
  | Fix_VIFFIFO => { s with VIFFIFOHack := enabled }
  | Fix_VIF1Stall => { s with VIF1StallHack := enabled }
  | Fix_GIFFIFO => { s with GIFFIFOHack := enabled }
  | Fix_FMVinSoftware => { s with FMVinSoftwareHack := enabled }
  | Fix_GoemonTlbMiss => { s with GoemonTlbHack := enabled }
  | Fix_Ibit => { s with IbitHack := enabled }
  | Fix_VUKickstart => { s with VUKickstartHack := enabled }

open GamefixId in
/-- `GamefixOptions::Get( GamefixId id )`. -/
def GamefixOptions.Get (s : GamefixOptions) (id : GamefixId) : Bool :=
  match id with
  | Fix_VuAddSub => s.VuAddSubHack
  | Fix_FpuCompare => s.FpuCompareHack
  | Fix_FpuMultiply => s.FpuMulHack
  | Fix_FpuNegDiv => s.FpuNegDivHack
  | Fix_XGKick => s.XgKickHack
  | Fix_IpuWait => s.IPUWaitHack
  | Fix_EETiming => s.EETimingHack
  | Fix_SkipMpeg => s.SkipMPEGHack
  | Fix_OPHFlag => s.OPHFlagHack
  | Fix_DMABusy => s.DMABusyHack
  | Fix_VIFFIFO => s.VIFFIFOHack
  | Fix_VIF1Stall => s.VIF1StallHack
  | Fix_GIFFIFO => s.GIFFIFOHack
  | Fix_FMVinSoftware => s.FMVinSoftwareHack
  | Fix_GoemonTlbMiss => s.GoemonTlbHack
  | Fix_Ibit => s.IbitHack
  | Fix_VUKickstart => s.VUKickstartHack

/-! ## Test images -/

/-- The four bytes of a 32-bit value, least significant first. -/
def le32 (n : Nat) : List u8 :=
  [Fin.ofNat n, Fin.ofNat (n / 256), Fin.ofNat (n / 65536), Fin.ofNat (n / 16777216)]

/-- The two bytes of a 16-bit value, least significant first. -/
def le16 (n : Nat) : List u8 := [Fin.ofNat n, Fin.ofNat (n / 256)]

/-- `k` zero bytes. -/
def zeros (k : Nat) : List u8 := List.replicate k 0

/-- An ELF32 header with the given entry point, table offsets and counts. -/
def mkHeader (entry phoff shoff phnum shnum shstrndx : Nat) : List u8 :=
  zeros 24 ++ le32 entry ++ le32 phoff ++ le32 shoff ++ zeros 8 ++ le16 phnum
    ++ zeros 2 ++ le16 shnum ++ le16 shstrndx

/-- An ELF32 program-header entry with the given address and memory size. -/
def mkPhdr (vaddr memsz : Nat) : List u8 :=
  zeros 8 ++ le32 vaddr ++ zeros 8 ++ le32 memsz ++ zeros 8

/-- One program header whose address range wraps past `2 ^ 32`. -/
def wrapImage : List u8 :=
  mkHeader 0x80000010 52 0 1 0 0 ++ mkPhdr 0x80000000 0x90000000

/-- Two program headers; the entry point lies in the second one only. -/
def textImage : List u8 :=
  mkHeader 0x100010 52 0 2 0 0 ++ mkPhdr 0x200000 0x100 ++ mkPhdr 0x100000 0x1000

/-! ## Statement vocabulary -/

/-- `p_vaddr` of entry `i` of the program-header table at offset `ph`. -/
def p_vaddrAt (L : ElfLayout) (d : List u8) (ph i : Nat) : Nat :=
  u32At d (ph + i * L.sizeof_ELF_PHR + L.p_vaddr)

/-- `p_memsz` of entry `i` of the program-header table at offset `ph`. -/
def p_memszAt (L : ElfLayout) (d : List u8) (ph i : Nat) : Nat :=
  u32At d (ph + i * L.sizeof_ELF_PHR + L.p_memsz)

/-- Entry `i` contains the entry point, the end of its range being the integer
sum `p_vaddr + p_memsz`. -/
def containsEntry (L : ElfLayout) (d : List u8) (ph i : Nat) : Prop :=
  p_vaddrAt L d ph i ≤ u32At d L.e_entry ∧
    u32At d L.e_entry < p_vaddrAt L d ph i + p_memszAt L d ph i

/-- Entry `i` contains the entry point, the end of its range being the 32-bit
sum `(p_vaddr + p_memsz) mod 2^32`. -/
def containsEntry32 (L : ElfLayout) (d : List u8) (ph i : Nat) : Prop :=
  p_vaddrAt L d ph i ≤ u32At d L.e_entry ∧
    u32At d L.e_entry < (p_vaddrAt L d ph i + p_memszAt L d ph i) % 2 ^ 32

instance (L : ElfLayout) (d : List u8) (ph i : Nat) : Decidable (containsEntry L d ph i) := by
  unfold containsEntry; infer_instance

instance (L : ElfLayout) (d : List u8) (ph i : Nat) : Decidable (containsEntry32 L d ph i) := by
  unfold containsEntry32; infer_instance

/-- The exclusive-or of the little-endian words `0 .. k-1` of the buffer. -/
def xorWords (d : List u8) : Nat → Nat
  | 0 => 0
  | k + 1 => xorWords d k ^^^ u32At d (4 * k)

/-- `sh_type` of entry `i` of the section-header table at offset `sh`. -/
def sh_typeAt (L : ElfLayout) (d : List u8) (sh i : Nat) : Nat :=
  u32At d (sh + i * L.sizeof_ELF_SHR + L.sh_type)

/-- `sh_offset` of entry `i` of the section-header table at offset `sh`. -/
def sh_offsetAt (L : ElfLayout) (d : List u8) (sh i : Nat) : Nat :=
  u32At d (sh + i * L.sizeof_ELF_SHR + L.sh_offset)

/-- `sh_size` of entry `i` of the section-header table at offset `sh`. -/
def sh_sizeAt (L : ElfLayout) (d : List u8) (sh i : Nat) : Nat :=
  u32At d (sh + i * L.sizeof_ELF_SHR + L.sh_size)

/-- `sh_link` of entry `i` of the section-header table at offset `sh`. -/
def sh_linkAt (L : ElfLayout) (d : List u8) (sh i : Nat) : Nat :=
  u32At d (sh + i * L.sizeof_ELF_SHR + L.sh_link)

/-- `st_name` of entry `i` of the symbol table at offset `eS`. -/
def st_nameAt (L : ElfLayout) (d : List u8) (eS i : Nat) : Nat :=
  u32At d (eS + i * L.sizeof_Elf32_Sym + L.st_name)

/-- `st_value` of entry `i` of the symbol table at offset `eS`. -/
def st_valueAt (L : ElfLayout) (d : List u8) (eS i : Nat) : Nat :=
  u32At d (eS + i * L.sizeof_Elf32_Sym + L.st_value)

/-- `st_info` of entry `i` of the symbol table at offset `eS`. -/
def st_infoAt (L : ElfLayout) (d : List u8) (eS i : Nat) : Nat :=
  byteAt d (eS + i * L.sizeof_Elf32_Sym + L.st_info)

/-- Entry `i` is a function symbol with a non-zero value. -/
def isFunctionSymbol (L : ElfLayout) (d : List u8) (eS i : Nat) : Bool :=
  decide (st_valueAt L d eS i ≠ 0) && decide (st_infoAt L d eS i % 16 = 2)

/-- The label of entry `i`: the name at offset `st_name` of the string table at
`symNames`, and `st_value`. -/
def labelOf (L : ElfLayout) (d : List u8) (eS symNames i : Nat) : Label :=
  ⟨symNames + st_nameAt L d eS i, st_valueAt L d eS i⟩

/-- The labels of the qualifying entries among entries `1 .. n-1`, by increasing
index. -/
def expectedLabels (L : ElfLayout) (d : List u8) (eS symNames n : Nat) : List Label :=
  ((List.range n).filter (fun i => decide (1 ≤ i) && isFunctionSymbol L d eS i)).map
    (labelOf L d eS symNames)

/-- An ELF32 section-header entry. -/
def mkShdr (type offset size link : Nat) : List u8 :=
  zeros 4 ++ le32 type ++ zeros 8 ++ le32 offset ++ le32 size ++ le32 link ++ zeros 12

/-- An ELF32 symbol-table entry. -/
def mkSym (name value info : Nat) : List u8 :=
  le32 name ++ le32 value ++ zeros 4 ++ [Fin.ofNat info] ++ zeros 3

/-- A null section, a symbol table of five entries linked to section 2, and a
string table.  Entry 0 is a function symbol with a non-zero value; entries 1 and
4 are function symbols, entry 2 has value 0, entry 3 is an object symbol. -/
def symImage : List u8 :=
  mkHeader 0x100000 0 52 0 3 2
    ++ mkShdr 0 0 0 0 ++ mkShdr 2 172 80 2 ++ mkShdr 3 252 16 0
    ++ mkSym 1 0x100100 0x12 ++ mkSym 1 0x100000 0x12 ++ mkSym 6 0 0x12
    ++ mkSym 10 0x100040 0x11 ++ mkSym 12 0x100080 0x02
    ++ zeros 16

/-- The same header and sections as `symImage`, the symbol table retyped to 1. -/
def noSymImage : List u8 :=
  mkHeader 0x100000 0 52 0 3 2
    ++ mkShdr 0 0 0 0 ++ mkShdr 1 172 80 2 ++ mkShdr 3 252 16 0
    ++ mkSym 1 0x100100 0x12 ++ mkSym 1 0x100000 0x12 ++ mkSym 6 0 0x12
    ++ mkSym 10 0x100040 0x11 ++ mkSym 12 0x100080 0x02
    ++ zeros 16

/-- An implication of the floating-point group is violated. -/
def fpuViolated (s : RecompilerOptions) : Prop :=
  (s.fpuExtraOverflow = true ∧ s.fpuOverflow = false) ∨
    (s.fpuFullMode = true ∧ (s.fpuOverflow = false ∨ s.fpuExtraOverflow = false))

/-- An implication of the vector-unit group is violated. -/
def vuViolated (s : RecompilerOptions) : Prop :=
  (s.vuExtraOverflow = true ∧ s.vuOverflow = false) ∨
    (s.vuSignOverflow = true ∧ s.vuExtraOverflow = false)

instance (s : RecompilerOptions) : Decidable (fpuViolated s) := by
  unfold fpuViolated; infer_instance

instance (s : RecompilerOptions) : Decidable (vuViolated s) := by
  unfold vuViolated; infer_instance

/-! ## Gamefix lists (`Pcsx2Config.cpp`)

`wxStringTokenizer` and `wxString::CmpNoCase` belong to wxWidgets.  The
tokenizer in `wxTOKEN_STRTOK` mode yields the non-empty pieces between
delimiter characters; `CmpNoCase` returns 0 when the two strings are equal up to
letter case. -/

/-- The table `tbl_GamefixNames`. -/
def tbl_GamefixNames : List String :=
  ["VuAddSub", "FpuCompare", "FpuMul", "FpuNegDiv", "XGKick", "IPUWait", "EETiming",
    "SkipMPEG", "OPHFlag", "DMABusy", "VIFFIFO", "VIF1Stall", "GIFFIFO", "FMVinSoftware",
    "GoemonTlb", "Ibit", "VUKickstart"]

open GamefixId in
/-- The integer value of an enumerator (`GamefixId_FIRST` is 0). -/
def GamefixId.toNat : GamefixId → Nat
  | Fix_VuAddSub => 0
  | Fix_FpuCompare => 1
  | Fix_FpuMultiply => 2
  | Fix_FpuNegDiv => 3
  | Fix_XGKick => 4
  | Fix_IpuWait => 5
  | Fix_EETiming => 6
  | Fix_SkipMpeg => 7
  | Fix_OPHFlag => 8
  | Fix_DMABusy => 9
  | Fix_VIFFIFO => 10
  | Fix_VIF1Stall => 11
  | Fix_GIFFIFO => 12
  | Fix_FMVinSoftware => 13
  | Fix_GoemonTlbMiss => 14
  | Fix_Ibit => 15
  | Fix_VUKickstart => 16

open GamefixId in
/-- The enumerators from `GamefixId_FIRST` up to `pxEnumEnd`, in order. -/
def GamefixId.all : List GamefixId :=
  [Fix_VuAddSub, Fix_FpuCompare, Fix_FpuMultiply, Fix_FpuNegDiv, Fix_XGKick, Fix_IpuWait,
    Fix_EETiming, Fix_SkipMpeg, Fix_OPHFlag, Fix_DMABusy, Fix_VIFFIFO, Fix_VIF1Stall,
    Fix_GIFFIFO, Fix_FMVinSoftware, Fix_GoemonTlbMiss, Fix_Ibit, Fix_VUKickstart]

/-- `EnumToString( GamefixId id )`: `tbl_GamefixNames[id]`. -/
def EnumToString (id : GamefixId) : String := tbl_GamefixNames.getD id.toNat ""

/-- `a.CmpNoCase(b) == 0`: equal after lower-casing every letter. -/
def CmpNoCase (a b : List Char) : Bool := a.map Char.toLower == b.map Char.toLower

/-- The delimiters `L",|"`. -/
def isDelimiter (c : Char) : Bool := c == ',' || c == '|'

/-- The tokens `wxStringTokenizer( list, L",|", wxTOKEN_STRTOK )` yields: the
non-empty pieces between delimiters, left to right. -/
def wxStringTokenizer (list : List Char) : List (List Char) :=
  (list.splitOnP isDelimiter).filter (fun t => !t.isEmpty)

/-- The search loop `for (i=GamefixId_FIRST; i < pxEnumEnd; ++i)` over the
enumerators left: the first one whose name compares equal, `none` when `i`
reaches `pxEnumEnd`. -/
def findGamefix (token : List Char) : List GamefixId → Option GamefixId
  | [] => none
  | i :: rest =>
    if CmpNoCase token (EnumToString i).toList then some i else findGamefix token rest

/-- The body of the `while` loop for one token: `if( i < pxEnumEnd ) Set( i );`.
The call passes no second argument, so the flag takes the default argument
`dflt` of the declaration. -/
def GamefixOptions.Set_token (dflt : Bool) (s : GamefixOptions) (token : List Char) :
    GamefixOptions :=
  match findGamefix token GamefixId.all with
  | some i => s.Set i dflt
  | none => s

/-- `GamefixOptions::Set( const wxString& list, bool enabled )`, for a
declaration whose default argument is `dflt`.  The declaration is in `Config.h`,
which is not part of the sources at hand. -/
def GamefixOptions.Set_list_with (dflt : Bool) (s : GamefixOptions) (list : String)
    (_enabled : Bool) : GamefixOptions :=
  (wxStringTokenizer list.toList).foldl (GamefixOptions.Set_token dflt) s

/-- Modelled from the spec: the declaration `void Set( GamefixId id, bool
enabled=true )` of `Config.h` is missing; the list form "enables a full list of
gamefixes", so the default argument is `true`. -/
def GamefixOptions.Set_list (s : GamefixOptions) (list : String) (enabled : Bool) :
    GamefixOptions :=
  GamefixOptions.Set_list_with true s list enabled

/-- The state `GamefixOptions()` constructs: `DisableAll()`. -/
def GamefixOptions.ctor : GamefixOptions :=
  ⟨false, false, false, false, false, false, false, false, false, false, false, false,
    false, false, false, false, false⟩

/-! ## Capability probe (`cpudetect.cpp`)

`x86emitter/tools.h`, which declares `x86capabilities`, is not part of the
sources at hand.  The record below has the members the code names.  The
capability flags are one-bit fields sharing storage with `AllCapabilities`.
`VendorName` and `FamilyName` are modelled by the 12 and 48 bytes the code
writes.  The processor is a parameter: the registers `cpuid` and `cpuidex`
return, and the area `_fxsave` stores. -/

/-- The registers a query returns: `regs[0..3]` are EAX, EBX, ECX, EDX. -/
structure CpuidRegs where
  eax : Nat
  ebx : Nat
  ecx : Nat
  edx : Nat
deriving DecidableEq, Repr

/-- The processor as `Identify` sees it. -/
structure CpuidOracle where
  cpuid : Nat → CpuidRegs
  cpuidex : Nat → Nat → CpuidRegs

/-- The value a 32-bit register holds. -/
def toU32 (x : Nat) : Nat := x % 2 ^ 32

/-- The value `x86Vendor_Unknown`: the index of `"Unknown     "` in
`tbl_x86vendors`. -/
def x86Vendor_Unknown : Nat := 2

/-- The table `tbl_x86vendors`. -/
def tbl_x86vendors : List String := ["GenuineIntel", "AuthenticAMD", "Unknown     "]

/-- The bytes of an ASCII string. -/
def asciiBytes (s : String) : List u8 := s.toList.map (fun ch => Fin.ofNat ch.toNat)

/-- `memcmp(a, b, 12) == 0`. -/
def memcmp12 (a b : List u8) : Bool := a.take 12 == b.take 12

/-- `x86capabilities`. -/
structure x86capabilities where
  isIdentified : Bool
  VendorID : Nat
  FamilyID : Nat
  Model : Nat
  TypeID : Nat
  StepID : Nat
  Flags : Nat
  Flags2 : Nat
  EFlags : Nat
  EFlags2 : Nat
  SEFlag : Nat
  VendorName : List u8
  FamilyName : List u8
  MXCSR_Mask : Nat
  hasFloatingPointUnit : Bool
  hasVirtual8086ModeEnhancements : Bool
  hasDebuggingExtensions : Bool
  hasPageSizeExtensions : Bool
  hasTimeStampCounter : Bool
  hasModelSpecificRegisters : Bool
  hasPhysicalAddressExtension : Bool
  hasMachineCheckArchitecture : Bool
  hasCOMPXCHG8BInstruction : Bool
  hasAdvancedProgrammableInterruptController : Bool
  hasSEPFastSystemCall : Bool
  hasMemoryTypeRangeRegisters : Bool
  hasPTEGlobalFlag : Bool
  hasConditionalMoveAndCompareInstructions : Bool
  hasFGPageAttributeTable : Bool
  has36bitPageSizeExtension : Bool
  hasProcessorSerialNumber : Bool
  hasCFLUSHInstruction : Bool
  hasDebugStore : Bool
  hasACPIThermalMonitorAndClockControl : Bool
  hasFastStreamingSIMDExtensionsSaveRestore : Bool
  hasStreamingSIMDExtensions : Bool
  hasStreamingSIMD2Extensions : Bool
  hasSelfSnoop : Bool
  hasThermalMonitor : Bool
  hasIntel64BitArchitecture : Bool
  hasStreamingSIMD3Extensions : Bool
  hasSupplementalStreamingSIMD3Extensions : Bool
  hasStreamingSIMD4Extensions : Bool
  hasStreamingSIMD4Extensions2 : Bool
  hasAVX : Bool
  hasFMA : Bool
  hasAVX2 : Bool
  hasBMI1 : Bool
  hasBMI2 : Bool
  hasAMD64BitArchitecture : Bool
  hasStreamingSIMD4ExtensionsA : Bool
deriving DecidableEq, Repr

/-- The constructor `x86capabilities::x86capabilities()`; `AllCapabilities(0)`
clears every flag.  `MXCSR_Mask` is not initialised there, so its value is a
parameter. -/
def x86capabilities.ctor (mxcsr : Nat) : x86capabilities where
  isIdentified := false
  VendorID := x86Vendor_Unknown
  FamilyID := 0
  Model := 0
  TypeID := 0
  StepID := 0
  Flags := 0
  Flags2 := 0
  EFlags := 0
  EFlags2 := 0
  SEFlag := 0
  VendorName := zeros 12
  FamilyName := zeros 48
  MXCSR_Mask := mxcsr
  hasFloatingPointUnit := false
  hasVirtual8086ModeEnhancements := false
  hasDebuggingExtensions := false
  hasPageSizeExtensions := false
  hasTimeStampCounter := false
  hasModelSpecificRegisters := false
  hasPhysicalAddressExtension := false
  hasMachineCheckArchitecture := false
  hasCOMPXCHG8BInstruction := false
  hasAdvancedProgrammableInterruptController := false
  hasSEPFastSystemCall := false
  hasMemoryTypeRangeRegisters := false
  hasPTEGlobalFlag := false
  hasConditionalMoveAndCompareInstructions := false
  hasFGPageAttributeTable := false
  has36bitPageSizeExtension := false
  hasProcessorSerialNumber := false
  hasCFLUSHInstruction := false
  hasDebugStore := false
  hasACPIThermalMonitorAndClockControl := false
  hasFastStreamingSIMDExtensionsSaveRestore := false
  hasStreamingSIMDExtensions := false
  hasStreamingSIMD2Extensions := false
  hasSelfSnoop := false
  hasThermalMonitor := false
  hasIntel64BitArchitecture := false
  hasStreamingSIMD3Extensions := false
  hasSupplementalStreamingSIMD3Extensions := false
  hasStreamingSIMD4Extensions := false
  hasStreamingSIMD4Extensions2 := false
  hasAVX := false
  hasFMA := false
  hasAVX2 := false
  hasBMI1 := false
  hasBMI2 := false
  hasAMD64BitArchitecture := false
  hasStreamingSIMD4ExtensionsA := false

/-- The vendor search `for (vid = 0; vid < x86Vendor_Unknown; ++vid)`:
iterations left and `vid`. -/
def vendorLoop (VendorName : List u8) : Nat → Nat → Nat
  | 0, vid => vid
  | n + 1, vid =>
    if memcmp12 VendorName (asciiBytes (tbl_x86vendors.getD vid "")) then vid
    else vendorLoop VendorName n (vid + 1)

/-- The sixteen bytes `cpuid((int *)p, leaf)` stores at `p`. -/
def regBytes (r : CpuidRegs) : List u8 := le32 r.eax ++ le32 r.ebx ++ le32 r.ecx ++ le32 r.edx

/-- `Identify`, lines 121-139: the vendor string of leaf 0 and the vendor search. -/
def Identify_vendor (cpu : CpuidOracle) (c : x86capabilities) : x86capabilities :=
  let c := { c with VendorName := zeros 12 }
  let regs := cpu.cpuid 0
  let c := { c with VendorName := le32 regs.ebx ++ le32 regs.edx ++ le32 regs.ecx }
  { c with VendorID := vendorLoop c.VendorName x86Vendor_Unknown 0 }

/-- `Identify`, lines 141-153: leaf 1, when `cmds >= 1`. -/
def Identify_leaf1 (cpu : CpuidOracle) (cmds : Nat) (c : x86capabilities) : x86capabilities :=
  if cmds ≥ 0x00000001 then
    let regs := cpu.cpuid 0x00000001
    { c with
      StepID := toU32 regs.eax &&& 0xf
      Model := (toU32 regs.eax >>> 4) &&& 0xf
      FamilyID := (toU32 regs.eax >>> 8) &&& 0xf
      TypeID := (toU32 regs.eax >>> 12) &&& 0x3
      Flags := toU32 regs.edx
      Flags2 := toU32 regs.ecx }
  else c

/-- `Identify`, lines 155-160: leaf 7 with sub-leaf 0, when `cmds >= 7`. -/
def Identify_leaf7 (cpu : CpuidOracle) (cmds : Nat) (c : x86capabilities) : x86capabilities :=
  if cmds ≥ 0x00000007 then
    let regs := cpu.cpuidex 0x00000007 0
    { c with SEFlag := toU32 regs.ebx }
  else c

/-- `Identify`, lines 162-172: the extended leaves. -/
def Identify_extended (cpu : CpuidOracle) (c : x86capabilities) : x86capabilities :=
  let regs := cpu.cpuid 0x80000000
  let cmds := toU32 regs.eax
  if cmds ≥ 0x80000001 then
    let regs := cpu.cpuid 0x80000001
    { c with EFlags2 := toU32 regs.ecx, EFlags := toU32 regs.edx }
  else c

/-- `Identify`, lines 174-177: the 48-byte display name. -/
def Identify_familyName (cpu : CpuidOracle) (c : x86capabilities) : x86capabilities :=
  let c := { c with FamilyName := zeros 48 }
  { c with
    FamilyName := regBytes (cpu.cpuid 0x80000002) ++ regBytes (cpu.cpuid 0x80000003)
      ++ regBytes (cpu.cpuid 0x80000004) }

/-- `Identify`, lines 179-192: bits 0 to 14 of `Flags`.
`hasMachineCheckArchitecture` is assigned twice. -/
def Identify_flagsLow (c : x86capabilities) : x86capabilities :=
  let c := { c with
    hasFloatingPointUnit := (c.Flags >>> 0).testBit 0
    hasVirtual8086ModeEnhancements := (c.Flags >>> 1).testBit 0
    hasDebuggingExtensions := (c.Flags >>> 2).testBit 0
    hasPageSizeExtensions := (c.Flags >>> 3).testBit 0
    hasTimeStampCounter := (c.Flags >>> 4).testBit 0
    hasModelSpecificRegisters := (c.Flags >>> 5).testBit 0
    hasPhysicalAddressExtension := (c.Flags >>> 6).testBit 0 }
  let c := { c with hasMachineCheckArchitecture := (c.Flags >>> 7).testBit 0 }
  let c := { c with
    hasCOMPXCHG8BInstruction := (c.Flags >>> 8).testBit 0
    hasAdvancedProgrammableInterruptController := (c.Flags >>> 9).testBit 0
    hasSEPFastSystemCall := (c.Flags >>> 11).testBit 0
    hasMemoryTypeRangeRegisters := (c.Flags >>> 12).testBit 0
    hasPTEGlobalFlag := (c.Flags >>> 13).testBit 0 }
  { c with hasMachineCheckArchitecture := (c.Flags >>> 14).testBit 0 }

/-- `Identify`, lines 193-205: bits 15 to 30 of `Flags`. -/
def Identify_flagsHigh (c : x86capabilities) : x86capabilities :=
  { c with
    hasConditionalMoveAndCompareInstructions := (c.Flags >>> 15).testBit 0
    hasFGPageAttributeTable := (c.Flags >>> 16).testBit 0
    has36bitPageSizeExtension := (c.Flags >>> 17).testBit 0
    hasProcessorSerialNumber := (c.Flags >>> 18).testBit 0
    hasCFLUSHInstruction := (c.Flags >>> 19).testBit 0
    hasDebugStore := (c.Flags >>> 21).testBit 0
    hasACPIThermalMonitorAndClockControl := (c.Flags >>> 22).testBit 0
    hasFastStreamingSIMDExtensionsSaveRestore := (c.Flags >>> 24).testBit 0
    hasStreamingSIMDExtensions := (c.Flags >>> 25).testBit 0
    hasStreamingSIMD2Extensions := (c.Flags >>> 26).testBit 0
    hasSelfSnoop := (c.Flags >>> 27).testBit 0
    hasThermalMonitor := (c.Flags >>> 29).testBit 0
    hasIntel64BitArchitecture := (c.Flags >>> 30).testBit 0 }

/-- `Identify`, lines 211-214: the SSE3 to SSE4.2 bits of `Flags2`. -/
def Identify_flags2 (c : x86capabilities) : x86capabilities :=
  { c with
    hasStreamingSIMD3Extensions := (c.Flags2 >>> 0).testBit 0
    hasSupplementalStreamingSIMD3Extensions := (c.Flags2 >>> 9).testBit 0
    hasStreamingSIMD4Extensions := (c.Flags2 >>> 19).testBit 0
    hasStreamingSIMD4Extensions2 := (c.Flags2 >>> 20).testBit 0 }

/-- `Identify`, lines 216-224: the flags behind the OSXSAVE test. -/
def Identify_osxsave (c : x86capabilities) : x86capabilities :=
  if (c.Flags2 >>> 27).testBit 0 then
    { c with
      hasAVX := (c.Flags2 >>> 28).testBit 0
      hasFMA := (c.Flags2 >>> 12).testBit 0
      hasAVX2 := (c.SEFlag >>> 5).testBit 0 }
  else c

/-- `Identify`, lines 226-231: `SEFlag` and the AMD-only bits. -/
def Identify_tail (c : x86capabilities) : x86capabilities :=
  let c := { c with
    hasBMI1 := (c.SEFlag >>> 3).testBit 0
    hasBMI2 := (c.SEFlag >>> 8).testBit 0 }
  { c with
    hasAMD64BitArchitecture := (c.EFlags >>> 29).testBit 0
    hasStreamingSIMD4ExtensionsA := (c.EFlags2 >>> 6).testBit 0 }

/-- The statements of `Identify` after the guard, in source order. -/
def Identify_body (cpu : CpuidOracle) (c : x86capabilities) : x86capabilities :=
  let c := { c with isIdentified := true }
  let cmds := toU32 (cpu.cpuid 0).eax
  let c := Identify_vendor cpu c
  let c := Identify_leaf1 cpu cmds c
  let c := Identify_leaf7 cpu cmds c
  let c := Identify_extended cpu c
  let c := Identify_familyName cpu c
  let c := Identify_flagsLow c
  let c := Identify_flagsHigh c
  let c := Identify_flags2 c
  let c := Identify_osxsave c
  let c := Identify_tail c
  { c with isIdentified := true }

/-- `x86capabilities::Identify`: `if (isIdentified) return;` and then the body.
`(x >> n) & 1` stored in a one-bit field is bit 0 of `x >>> n`. -/
def x86capabilities.Identify (cpu : CpuidOracle) (c : x86capabilities) : x86capabilities :=
  if c.isIdentified then c else Identify_body cpu c

/-- The 32-bit value `memcpy(&result, &targetFXSAVE[28], 4)` reads. -/
def fxsaveMask (targetFXSAVE : Fin 512 → u8) : Nat :=
  (targetFXSAVE 28).val + 256 * (targetFXSAVE 29).val + 65536 * (targetFXSAVE 30).val
    + 16777216 * (targetFXSAVE 31).val

/-- `x86capabilities::SIMD_EstablishMXCSRmask`; `targetFXSAVE` is the area
`_fxsave` stores. -/
def x86capabilities.SIMD_EstablishMXCSRmask (targetFXSAVE : Fin 512 → u8)
    (c : x86capabilities) : x86capabilities :=
  if !c.hasStreamingSIMDExtensions then c
  else
    let c := { c with MXCSR_Mask := 0xFFBF }
    let c := if c.hasStreamingSIMD2Extensions then { c with MXCSR_Mask := 0xFFFF } else c
    let result := fxsaveMask targetFXSAVE
    if result ≠ 0 then { c with MXCSR_Mask := result } else c

/-- A processor that answers leaf 0 with `"GenuineIntel"` and highest leaf 1,
and leaf 1 with the AVX, FMA and OSXSAVE bits (28, 12, 27) of ECX set. -/
def intelCpu : CpuidOracle where
  cpuid := fun leaf =>
    if leaf = 0 then ⟨1, 0x756e6547, 0x6c65746e, 0x49656e69⟩
    else if leaf = 1 then ⟨0x000306a9, 0, 0x18001000, 0x06000000⟩
    else ⟨0, 0, 0, 0⟩
  cpuidex := fun _ _ => ⟨0, 0, 0, 0⟩

/-- The same processor with the last byte of the vendor string changed
(`"GenuineIntem"`) and the OSXSAVE bit clear, AVX and FMA still set. -/
def otherCpu : CpuidOracle where
  cpuid := fun leaf =>
    if leaf = 0 then ⟨1, 0x756e6547, 0x6d65746e, 0x49656e69⟩
    else if leaf = 1 then ⟨0x000306a9, 0, 0x10001000, 0x06000000⟩
    else ⟨0, 0, 0, 0⟩
  cpuidex := fun _ _ => ⟨0, 0, 0, 0⟩

/-- A header that declares one program header at offset `0xFFFFFFF0`, far
outside the 52-byte image. -/
def noTableImage : List u8 := mkHeader 0x100000 0xFFFFFFF0 0 1 0 0

/-- The image `symImage` with the string-table index changed from 2 to 4, past
the three sections of the table. -/
def badStrndxImage : List u8 := mkHeader 0x100000 0 52 0 3 4 ++ symImage.drop 52

/-- A header that declares two sections at offset 52, followed by one section
header only. -/
def truncatedTableImage : List u8 := mkHeader 0x100000 0 52 0 2 0 ++ mkShdr 0 0 0 0

/-- The buffer with the word at index `k` (bytes `4k .. 4k+3`) replaced by the
little-endian bytes of `v`. -/
def replaceWord (d : List u8) (k v : Nat) : List u8 :=
  d.take (4 * k) ++ (le32 v ++ d.drop (4 * k + 4))

/-- A null section, two symbol tables (sections 1 and 2, each with a null entry
and one function symbol) both linked to the string table in section 3. -/
def twoSymImage : List u8 :=
  mkHeader 0x100000 0 52 0 4 3
    ++ mkShdr 0 0 0 0 ++ mkShdr 2 212 32 3 ++ mkShdr 2 244 32 3 ++ mkShdr 3 276 16 0
    ++ mkSym 0 0 0 ++ mkSym 1 0x111000 0x12
    ++ mkSym 0 0 0 ++ mkSym 6 0x222000 0x12
    ++ zeros 16

/-- The record with the raw word `Flags` replaced. -/
def setFlags (F : Nat) (c : x86capabilities) : x86capabilities := { c with Flags := F }

/-- The processor whose leaf-1 EDX (the word stored in `Flags`) has bit 7
flipped and which answers every other query as `cpu` does. -/
def flipFlagsBit7 (cpu : CpuidOracle) : CpuidOracle where
  cpuid := fun leaf =>
    if leaf = 1 then { cpu.cpuid 1 with edx := (cpu.cpuid 1).edx ^^^ 2 ^ 7 } else cpu.cpuid leaf
  cpuidex := cpu.cpuidex

/-- A save area whose bytes 28..31 are `78 56 34 12` and whose other bytes are
all `aa`. -/
def markedSaveArea : Fin 512 → u8 := fun i =>
  if i.val = 28 then 0x78 else if i.val = 29 then 0x56 else if i.val = 30 then 0x34
  else if i.val = 31 then 0x12 else 0xaa

/-- A save area whose bytes 28..31 are zero and whose other bytes are all `aa`. -/
def unmaskedSaveArea : Fin 512 → u8 := fun i =>
  if 28 ≤ i.val ∧ i.val ≤ 31 then 0 else 0xaa

/-- A record with SSE and without SSE2, the mask still `0x1234`. -/
def sseOnly : x86capabilities :=
  { x86capabilities.ctor 0x1234 with hasStreamingSIMDExtensions := true }

/-- A record with SSE and SSE2, the mask still `0x1234`. -/
def sseAndSse2 : x86capabilities :=
  { x86capabilities.ctor 0x1234 with
    hasStreamingSIMDExtensions := true
    hasStreamingSIMD2Extensions := true }

/-! ## Reads -/

theorem byteAt_lt (d : List u8) (i : Nat) : byteAt d i < 256 := (d.getD i 0).isLt

theorem u16At_lt (d : List u8) (off : Nat) : u16At d off < 2 ^ 16 := by
  have h0 := byteAt_lt d off
  have h1 := byteAt_lt d (off + 1)
  unfold u16At; omega

theorem u32At_lt (d : List u8) (off : Nat) : u32At d off < 2 ^ 32 := by
  have h0 := byteAt_lt d off
  have h1 := byteAt_lt d (off + 1)
  have h2 := byteAt_lt d (off + 2)
  have h3 := byteAt_lt d (off + 3)
  unfold u32At; omega

theorem readU8_of_le {d : List u8} {off : Nat} (h : off + 1 ≤ d.length) :
    readU8 d off = some (byteAt d off) := by
  simp [readU8, h]

theorem readU16_of_le {d : List u8} {off : Nat} (h : off + 2 ≤ d.length) :
    readU16 d off = some (u16At d off) := by
  simp [readU16, h]

theorem readU32_of_le {d : List u8} {off : Nat} (h : off + 4 ≤ d.length) :
    readU32 d off = some (u32At d off) := by
  simp [readU32, h]

/-- A field of entry `j` of a table of `n` entries lies inside the buffer when the
table does. -/
theorem field_in_table {base n S len j off w : Nat} (h : base + n * S ≤ len) (hj : j < n)
    (hoff : off + w ≤ S) : base + j * S + off + w ≤ len := by
  have h1 : (j + 1) * S ≤ n * S := Nat.mul_le_mul_right S hj
  rw [Nat.succ_mul] at h1
  omega

theorem byteAt_append_left (d t : List u8) {i : Nat} (h : i < d.length) :
    byteAt (d ++ t) i = byteAt d i := by
  simp [byteAt, List.getD_eq_getElem?_getD, List.getElem?_append_left h]

theorem u32At_append_left (d t : List u8) {off : Nat} (h : off + 4 ≤ d.length) :
    u32At (d ++ t) off = u32At d off := by
  unfold u32At
  rw [byteAt_append_left d t (by omega), byteAt_append_left d t (by omega),
    byteAt_append_left d t (by omega), byteAt_append_left d t (by omega)]

/-! ## getTextRange -/

/-- The loop returns `(0,0)` when none of the entries left contains the entry point. -/
theorem getTextRangeLoop_none (L : ElfLayout) (hL : L.WF) (o : ElfObject) (ph N : Nat)
    (hph : o.proghead = some ph) (hent : L.e_entry + 4 ≤ o.data.length)
    (htab : ph + N * L.sizeof_ELF_PHR ≤ o.data.length) :
    ∀ n i, i + n = N → (∀ j, i ≤ j → j < N → ¬ containsEntry32 L o.data ph j) →
      getTextRangeLoop L o n i = some (0, 0) := by
  obtain ⟨_, _, hv, hm, _⟩ := hL
  intro n
  induction n with
  | zero => intro i _ _; rfl
  | succ n ih =>
    intro i hi hno
    have hiN : i < N := by omega
    have b1 := field_in_table htab hiN hv
    have b2 := field_in_table htab hiN hm
    have hc := hno i (Nat.le_refl i) hiN
    unfold containsEntry32 p_vaddrAt p_memszAt at hc
    rw [getTextRangeLoop, hph]
    simp only [Option.bind_eq_bind, Option.some_bind, readU32_of_le b1, readU32_of_le b2,
      readU32_of_le hent]
    rw [if_neg (by simpa [gt_iff_lt] using hc)]
    exact ih (i + 1) (by omega) (fun j hj hjN => hno j (by omega) hjN)

/-- The loop returns the first entry that contains the entry point. -/
theorem getTextRangeLoop_first (L : ElfLayout) (hL : L.WF) (o : ElfObject) (ph N k : Nat)
    (hph : o.proghead = some ph) (hent : L.e_entry + 4 ≤ o.data.length)
    (htab : ph + N * L.sizeof_ELF_PHR ≤ o.data.length) (hk : k < N)
    (hin : containsEntry32 L o.data ph k) :
    ∀ n i, i + n = N → i ≤ k → (∀ j, i ≤ j → j < k → ¬ containsEntry32 L o.data ph j) →
      getTextRangeLoop L o n i = some (p_vaddrAt L o.data ph k, p_memszAt L o.data ph k) := by
  obtain ⟨_, _, hv, hm, _⟩ := hL
  intro n
  induction n with
  | zero => intro i hi hik _; omega
  | succ n ih =>
    intro i hi hik hno
    have hiN : i < N := by omega
    have b1 := field_in_table htab hiN hv
    have b2 := field_in_table htab hiN hm
    rw [getTextRangeLoop, hph]
    simp only [Option.bind_eq_bind, Option.some_bind, readU32_of_le b1, readU32_of_le b2,
      readU32_of_le hent]
    by_cases hik2 : i = k
    · subst hik2
      unfold containsEntry32 p_vaddrAt p_memszAt at hin
      rw [if_pos (by simpa [gt_iff_lt] using hin)]
      rfl
    · have hc := hno i (Nat.le_refl i) (by omega)
      unfold containsEntry32 p_vaddrAt p_memszAt at hc
      rw [if_neg (by simpa [gt_iff_lt] using hc)]
      exact ih (i + 1) (by omega) (by omega) (fun j hj hjk => hno j (by omega) hjk)

/-- C1 (as amended): when the program-header table is present and all `e_phnum`
entries lie inside the image, `getTextRange` returns `(p_vaddr, p_memsz)` of the
least entry with `p_vaddr <= e_entry < (p_vaddr + p_memsz) mod 2^32`, and `(0,0)`
when no entry qualifies. -/
theorem getTextRange_first_match (L : ElfLayout) (hL : L.WF) (o : ElfObject) (ph : Nat)
    (hph : o.proghead = some ph) (hnum : L.e_phnum + 2 ≤ o.data.length)
    (hent : L.e_entry + 4 ≤ o.data.length)
    (htab : ph + u16At o.data L.e_phnum * L.sizeof_ELF_PHR ≤ o.data.length) :
    (∀ k, k < u16At o.data L.e_phnum → containsEntry32 L o.data ph k →
        (∀ j, j < k → ¬ containsEntry32 L o.data ph j) →
        getTextRange L o = some (p_vaddrAt L o.data ph k, p_memszAt L o.data ph k)) ∧
      ((∀ j, j < u16At o.data L.e_phnum → ¬ containsEntry32 L o.data ph j) →
        getTextRange L o = some (0, 0)) := by
  constructor
  · intro k hk hin hno
    simp only [getTextRange, Option.bind_eq_bind, readU16_of_le hnum, Option.some_bind]
    exact getTextRangeLoop_first L hL o ph _ k hph hent htab hk hin _ 0 (by omega)
      (Nat.zero_le k) (fun j _ hjk => hno j hjk)
  · intro hno
    simp only [getTextRange, Option.bind_eq_bind, readU16_of_le hnum, Option.some_bind]
    exact getTextRangeLoop_none L hL o ph _ hph hent htab _ 0 (by omega)
      (fun j _ hjN => hno j hjN)

set_option maxRecDepth 100000 in
/-- Witness for C1: on `textImage` the second program header is returned. -/
theorem getTextRange_first_match_witness :
    elf32.WF ∧ initElfHeaders elf32 (ElfObject.init textImage) = some ⟨textImage, some 52, none⟩ ∧
      containsEntry32 elf32 textImage 52 1 ∧
      getTextRange elf32 ⟨textImage, some 52, none⟩ = some (0x100000, 0x1000) :=
  ⟨by decide, by decide, by decide,
    (getTextRange_first_match elf32 (by decide) ⟨textImage, some 52, none⟩ 52 rfl (by decide)
      (by decide) (by decide)).1 1 (by decide) (by decide) (by decide)⟩

set_option maxRecDepth 100000 in
/-- C1 as stated fails: on `wrapImage` the only program header has
`p_vaddr = 0x80000000`, `p_memsz = 0x90000000` and the entry point `0x80000010`
lies in the integer range, yet `start+size` wraps to `0x10000000` and
`getTextRange` returns `(0,0)`. -/
theorem getTextRange_integer_range_counterexample :
    initElfHeaders elf32 (ElfObject.init wrapImage) = some ⟨wrapImage, some 52, none⟩ ∧
      52 + u16At wrapImage elf32.e_phnum * elf32.sizeof_ELF_PHR ≤ wrapImage.length ∧
      containsEntry elf32 wrapImage 52 0 ∧
      getTextRange elf32 ⟨wrapImage, some 52, none⟩ = some (0, 0) ∧
      ((0, 0) : Nat × Nat) ≠ (p_vaddrAt elf32 wrapImage 52 0, p_memszAt elf32 wrapImage 52 0) := by
  decide

/-! ## getCRC -/

/-- The loop started at word `j` with `k` iterations left folds words `j .. j+k-1`
into the running value. -/
theorem getCRCLoop_eq (d : List u8) :
    ∀ k j crc, 4 * (j + k) ≤ d.length → crc = xorWords d j →
      getCRCLoop d k (4 * j) crc = some (xorWords d (j + k)) := by
  intro k
  induction k with
  | zero => intro j crc _ hc; simp [getCRCLoop, hc]
  | succ k ih =>
    intro j crc hlen hc
    have hb : 4 * j + 4 ≤ d.length := by omega
    rw [getCRCLoop]
    simp only [Option.bind_eq_bind, readU32_of_le hb, Option.some_bind]
    have h4 : 4 * j + 4 = 4 * (j + 1) := by ring
    rw [h4, ih (j + 1) _ (by omega) (by rw [hc, xorWords])]
    congr 2
    omega

/-- The checksum is the exclusive-or of the complete words of the buffer. -/
theorem getCRC_eq_xorWords (o : ElfObject) (hlen : o.data.length < 2 ^ 31) :
    getCRC o = some (xorWords o.data (o.data.length / 4)) := by
  have hmod : o.data.length / 4 % 2 ^ 32 = o.data.length / 4 := by omega
  unfold getCRC
  rw [hmod]
  have h := getCRCLoop_eq o.data (o.data.length / 4) 0 0 (by omega) rfl
  simpa using h

/-- The fold over the first `k` words only looks at the first `4 * k` bytes. -/
theorem xorWords_congr (d e : List u8) :
    ∀ k, (∀ off, off + 4 ≤ 4 * k → u32At d off = u32At e off) → xorWords d k = xorWords e k := by
  intro k
  induction k with
  | zero => intro _; rfl
  | succ k ih =>
    intro h
    rw [xorWords, xorWords, ih (fun off hoff => h off (by omega)), h (4 * k) (by omega)]

/-- C2: for a buffer of `n` bytes (`n` an `int`), `getCRC` returns the
exclusive-or of the `n / 4` little-endian words from offset 0; it is 0 when
`n < 4`; and a buffer of the same length that differs only in the trailing
`n mod 4` bytes has the same checksum. -/
theorem getCRC_xor_of_words (o : ElfObject) (hlen : o.data.length < 2 ^ 31) :
    getCRC o = some (xorWords o.data (o.data.length / 4)) ∧
      (o.data.length < 4 → getCRC o = some 0) ∧
      (∀ o2 : ElfObject, o2.data.length = o.data.length →
        o2.data.take (4 * (o.data.length / 4)) = o.data.take (4 * (o.data.length / 4)) →
        getCRC o2 = getCRC o) := by
  refine ⟨getCRC_eq_xorWords o hlen, ?_, ?_⟩
  · intro h4
    rw [getCRC_eq_xorWords o hlen]
    have : o.data.length / 4 = 0 := by omega
    rw [this]; rfl
  · intro o2 hl ht
    rw [getCRC_eq_xorWords o hlen, getCRC_eq_xorWords o2 (by omega), hl]
    congr 1
    apply xorWords_congr
    intro off hoff
    have hb : ∀ i, i < 4 * (o.data.length / 4) → byteAt o2.data i = byteAt o.data i := by
      intro i hi
      have h1 : (o2.data.take (4 * (o.data.length / 4)))[i]? = o2.data[i]? :=
        List.getElem?_take_of_lt hi
      have h2 : (o.data.take (4 * (o.data.length / 4)))[i]? = o.data[i]? :=
        List.getElem?_take_of_lt hi
      rw [ht] at h1
      simp only [byteAt, List.getD_eq_getElem?_getD]
      rw [← h1, h2]
    unfold u32At
    rw [hb off (by omega), hb (off + 1) (by omega), hb (off + 2) (by omega),
      hb (off + 3) (by omega)]

/-- Witness for C2: a six-byte buffer, one complete word and two trailing bytes. -/
theorem getCRC_xor_of_words_witness :
    (6 : Nat) < 2 ^ 31 ∧
      getCRC ⟨[0x78, 0x56, 0x34, 0x12, 0xff, 0xff], none, none⟩ = some 0x12345678 :=
  ⟨by decide,
    (getCRC_xor_of_words ⟨[0x78, 0x56, 0x34, 0x12, 0xff, 0xff], none, none⟩ (by decide)).1.trans
      (by decide)⟩

/-- C3 as stated fails: appending the single byte `1` to the three-byte image
`[0,0,0]` completes a word and changes the checksum from `0` to `0x01000000`. -/
theorem getCRC_append_counterexample :
    getCRC ⟨[0, 0, 0], none, none⟩ = some 0 ∧
      getCRC ⟨[0, 0, 0] ++ [1], none, none⟩ = some 0x01000000 := by
  decide

/-- C3 (as amended): appending bytes that do not complete a further word, that is
`(n mod 4) + k <= 3` for an image of `n` bytes and `k` appended bytes (in
particular 1, 2 or 3 bytes after an image whose length is a multiple of 4),
leaves the checksum unchanged. -/
theorem getCRC_append_trailing (o : ElfObject) (t : List u8)
    (hlen : o.data.length + t.length < 2 ^ 31) (ht : o.data.length % 4 + t.length ≤ 3) :
    getCRC { o with data := o.data ++ t } = getCRC o := by
  rw [getCRC_eq_xorWords o (by omega),
    getCRC_eq_xorWords { o with data := o.data ++ t } (by simp; omega)]
  have hq : (o.data ++ t).length / 4 = o.data.length / 4 := by
    rw [List.length_append]; omega
  simp only [hq]
  congr 1
  apply xorWords_congr
  intro off hoff
  exact u32At_append_left o.data t (by omega)

/-- Witness for C3: three bytes appended to a four-byte image. -/
theorem getCRC_append_trailing_witness :
    (4 : Nat) % 4 + 3 ≤ 3 ∧
      getCRC ⟨[0x78, 0x56, 0x34, 0x12] ++ [1, 2, 3], none, none⟩
        = getCRC ⟨[0x78, 0x56, 0x34, 0x12], none, none⟩ :=
  ⟨by decide,
    getCRC_append_trailing ⟨[0x78, 0x56, 0x34, 0x12], none, none⟩ [1, 2, 3] (by decide)
      (by decide)⟩

/-! ## initElfHeaders -/

/-- C4 as stated fails: in the all-zero 52-byte image `e_phoff + sizeof(ELF_PHR)
= 32 <= 52` and `e_shoff + sizeof(ELF_SHR) = 40 <= 52`, yet `e_phnum = e_shnum
= 0`, so neither pointer is set. -/
theorem initElfHeaders_offset_only_counterexample :
    ∃ o, initElfHeaders elf32 (ElfObject.init (zeros 52)) = some o ∧
      u32At (zeros 52) elf32.e_phoff + elf32.sizeof_ELF_PHR ≤ (zeros 52).length ∧
      hasProgramHeaders o = false ∧
      u32At (zeros 52) elf32.e_shoff + elf32.sizeof_ELF_SHR ≤ (zeros 52).length ∧
      hasSectionHeaders o = false :=
  ⟨ElfObject.init (zeros 52), by decide, by decide, by decide, by decide, by decide⟩

/-- What `initElfHeaders` leaves behind on an image that holds the header fields. -/
theorem initElfHeaders_headers_readable (L : ElfLayout) (hL : L.WF) (d : List u8)
    (hphnum : L.e_phnum + 2 ≤ d.length) (hphoff : L.e_phoff + 4 ≤ d.length)
    (hshnum : L.e_shnum + 2 ≤ d.length) (hshoff : L.e_shoff + 4 ≤ d.length) :
    ∃ o, initElfHeaders L (ElfObject.init d) = some o ∧ o.data = d ∧
      (hasProgramHeaders o = true ↔
        0 < u16At d L.e_phnum ∧ u32At d L.e_phoff + L.sizeof_ELF_PHR ≤ d.length) ∧
      (hasSectionHeaders o = true ↔
        0 < u16At d L.e_shnum ∧ u32At d L.e_shoff + L.sizeof_ELF_SHR ≤ d.length) ∧
      hasHeaders o = (hasProgramHeaders o && hasSectionHeaders o) := by
  obtain ⟨_, hp, _, _, _, hs, _⟩ := hL
  have h1 := u32At_lt d L.e_phoff
  have h2 := u32At_lt d L.e_shoff
  have m1 : (u32At d L.e_phoff + L.sizeof_ELF_PHR) % 18446744073709551616
      = u32At d L.e_phoff + L.sizeof_ELF_PHR := by
    omega
  have m2 : (u32At d L.e_shoff + L.sizeof_ELF_SHR) % 18446744073709551616
      = u32At d L.e_shoff + L.sizeof_ELF_SHR := by
    omega
  simp only [initElfHeaders, ElfObject.init, Option.bind_eq_bind, readU16_of_le hphnum,
    readU32_of_le hphoff, Option.some_bind, m1, m2, gt_iff_lt]
  by_cases a : 0 < u16At d L.e_phnum <;>
    by_cases b : u32At d L.e_phoff + L.sizeof_ELF_PHR ≤ d.length <;>
    by_cases c : 0 < u16At d L.e_shnum <;>
    by_cases e : u32At d L.e_shoff + L.sizeof_ELF_SHR ≤ d.length <;>
    simp [a, b, c, e, m1, m2, readU16_of_le hshnum, readU32_of_le hshoff, hasProgramHeaders,
      hasSectionHeaders, hasHeaders]

/-- C4 (as amended): after `initElfHeaders` on an image of length `L` that holds
the header fields, `hasProgramHeaders()` holds iff `e_phnum > 0` and
`e_phoff + sizeof(ELF_PHR) <= L`, `hasSectionHeaders()` holds iff `e_shnum > 0`
and `e_shoff + sizeof(ELF_SHR) <= L`, and `hasHeaders()` is their conjunction. -/
theorem initElfHeaders_presence (L : ElfLayout) (hL : L.WF) (d : List u8)
    (hphnum : L.e_phnum + 2 ≤ d.length) (hphoff : L.e_phoff + 4 ≤ d.length)
    (hshnum : L.e_shnum + 2 ≤ d.length) (hshoff : L.e_shoff + 4 ≤ d.length) :
    ∃ o, initElfHeaders L (ElfObject.init d) = some o ∧ o.data = d ∧
      (hasProgramHeaders o = true ↔
        0 < u16At d L.e_phnum ∧ u32At d L.e_phoff + L.sizeof_ELF_PHR ≤ d.length) ∧
      (hasSectionHeaders o = true ↔
        0 < u16At d L.e_shnum ∧ u32At d L.e_shoff + L.sizeof_ELF_SHR ≤ d.length) ∧
      hasHeaders o = (hasProgramHeaders o && hasSectionHeaders o) :=
  initElfHeaders_headers_readable L hL d hphnum hphoff hshnum hshoff

set_option maxRecDepth 100000 in
/-- Witness for C4: `textImage` has a program-header table and no section table. -/
theorem initElfHeaders_presence_witness :
    ∃ o, initElfHeaders elf32 (ElfObject.init textImage) = some o ∧ o.data = textImage ∧
      (hasProgramHeaders o = true ↔
        0 < u16At textImage elf32.e_phnum ∧
          u32At textImage elf32.e_phoff + elf32.sizeof_ELF_PHR ≤ textImage.length) ∧
      (hasSectionHeaders o = true ↔
        0 < u16At textImage elf32.e_shnum ∧
          u32At textImage elf32.e_shoff + elf32.sizeof_ELF_SHR ≤ textImage.length) ∧
      hasHeaders o = (hasProgramHeaders o && hasSectionHeaders o) :=
  initElfHeaders_presence elf32 (by decide) textImage (by decide) (by decide) (by decide)
    (by decide)


/-! ## loadSectionHeaders -/

/-- The symbol loop registers the qualifying entries among those left, in order. -/
theorem symbolLoop_eq (L : ElfLayout) (hL : L.WF) (d : List u8) (eS symNames N : Nat)
    (htab : eS + N * L.sizeof_Elf32_Sym ≤ d.length) :
    ∀ n i, i + n = N →
      symbolLoop L d eS symNames n i
        = some (((List.range' i n).filter (isFunctionSymbol L d eS)).map
            (labelOf L d eS symNames)) := by
  obtain ⟨_, _, _, _, _, _, _, _, _, _, _, _, hn, hv, hi⟩ := hL
  intro n
  induction n with
  | zero => intro i _; rfl
  | succ n ih =>
    intro i hin
    have hiN : i < N := by omega
    have b1 := field_in_table htab hiN hv
    have b2 := field_in_table htab hiN hi
    have b3 := field_in_table htab hiN hn
    rw [symbolLoop, List.range'_succ, List.filter_cons]
    simp only [Option.bind_eq_bind, readU32_of_le b1, readU8_of_le b2, readU32_of_le b3,
      Option.some_bind, ih (i + 1) (by omega)]
    by_cases hval : u32At d (eS + i * L.sizeof_Elf32_Sym + L.st_value) = 0
    · simp [isFunctionSymbol, st_valueAt, hval]
    · by_cases hinfo : byteAt d (eS + i * L.sizeof_Elf32_Sym + L.st_info) % 16 = 2
      · simp [isFunctionSymbol, st_valueAt, st_infoAt, hval, hinfo, labelOf, st_nameAt]
      · simp [isFunctionSymbol, st_valueAt, st_infoAt, hval, hinfo]

/-- Entries `1 .. n-1` are the entries of `List.range n` with index at least 1. -/
theorem filter_range_from_one (q : Nat → Bool) (n : Nat) :
    (List.range n).filter (fun i => decide (1 ≤ i) && q i) = (List.range' 1 (n - 1)).filter q := by
  cases n with
  | zero => rfl
  | succ m =>
    rw [List.range_eq_range', List.range'_succ, List.filter_cons]
    simp only [Nat.add_sub_cancel]
    have h0 : (decide (1 ≤ 0) && q 0) = false := by simp
    rw [h0]
    simp only [Bool.false_eq_true, if_false]
    apply List.filter_congr
    intro x hx
    have hx1 : 1 ≤ x := (List.mem_range'_1.mp hx).1
    simp [hx1]

/-- Past the last symbol-table section the scan keeps its pair. -/
theorem sectionScan_keep (L : ElfLayout) (hL : L.WF) (d : List u8) (sh N : Nat)
    (htab : sh + N * L.sizeof_ELF_SHR ≤ d.length) :
    ∀ n i acc, i + n = N → (∀ j, i ≤ j → j < N → sh_typeAt L d sh j ≠ 2) →
      sectionScan L d sh n i acc = some acc := by
  obtain ⟨_, _, _, _, _, _, ht, _⟩ := hL
  intro n
  induction n with
  | zero => intro i acc _ _; rfl
  | succ n ih =>
    intro i acc hin hno
    have hiN : i < N := by omega
    have b1 := field_in_table htab hiN ht
    have hty := hno i (Nat.le_refl i) hiN
    unfold sh_typeAt at hty
    rw [sectionScan]
    simp only [Option.bind_eq_bind, readU32_of_le b1, Option.some_bind, if_neg hty]
    exact ih (i + 1) acc (by omega) (fun j hj hjN => hno j (by omega) hjN)

/-- The scan ends with the last symbol-table section and its link. -/
theorem sectionScan_last (L : ElfLayout) (hL : L.WF) (d : List u8) (sh N k : Nat)
    (htab : sh + N * L.sizeof_ELF_SHR ≤ d.length) (hk : k < N)
    (hty : sh_typeAt L d sh k = 2)
    (hlast : ∀ j, k < j → j < N → sh_typeAt L d sh j ≠ 2) :
    ∀ n i acc, i + n = N → i ≤ k →
      sectionScan L d sh n i acc = some ((k : Int), toInt32 (sh_linkAt L d sh k)) := by
  have hL2 := hL
  obtain ⟨_, _, _, _, _, _, ht, _, _, hl, _⟩ := hL
  intro n
  induction n with
  | zero => intro i acc hin hik; omega
  | succ n ih =>
    intro i acc hin hik
    have hiN : i < N := by omega
    have b1 := field_in_table htab hiN ht
    have b2 := field_in_table htab hiN hl
    rw [sectionScan]
    simp only [Option.bind_eq_bind, readU32_of_le b1, readU32_of_le b2, Option.some_bind]
    by_cases hik2 : i = k
    · subst hik2
      unfold sh_typeAt at hty
      rw [if_pos hty]
      exact sectionScan_keep L hL2 d sh N htab n (i + 1) _ (by omega)
        (fun j hj hjN => hlast j (by omega) hjN)
    · by_cases hty2 : u32At d (sh + i * L.sizeof_ELF_SHR + L.sh_type) = 2
      · rw [if_pos hty2]
        exact ih (i + 1) _ (by omega) (by omega)
      · rw [if_neg hty2]
        exact ih (i + 1) _ (by omega) (by omega)

theorem toInt32_of_lt {x : Nat} (h : x < 2 ^ 31) : toInt32 x = (x : Int) := by
  unfold toInt32
  have h1 : x % 2 ^ 32 = x := by omega
  rw [h1, if_pos h]

/-- With the headers readable, the table offset inside the image and the
string-table entry readable, `loadSectionHeaders` reads the symbol table named by
the last section of type 2. -/
theorem loadSectionHeaders_last (L : ElfLayout) (hL : L.WF) (o : ElfObject) (sh k : Nat)
    (hsh : o.secthead = some sh) (hlen : o.data.length < 2 ^ 31)
    (hshoff : L.e_shoff + 4 ≤ o.data.length)
    (hoff : u32At o.data L.e_shoff ≤ o.data.length)
    (hstrndx : L.e_shstrndx + 2 ≤ o.data.length) (hshnum : L.e_shnum + 2 ≤ o.data.length)
    (htab : sh + u16At o.data L.e_shnum * L.sizeof_ELF_SHR ≤ o.data.length)
    (hstr : (if u16At o.data L.e_shstrndx = 0xffff then 0 else u16At o.data L.e_shstrndx)
      < u16At o.data L.e_shnum)
    (hk : k < u16At o.data L.e_shnum) (hty : sh_typeAt L o.data sh k = 2)
    (hlast : ∀ j, k < j → j < u16At o.data L.e_shnum → sh_typeAt L o.data sh j ≠ 2)
    (hlink : sh_linkAt L o.data sh k < u16At o.data L.e_shnum)
    (hsym : sh_offsetAt L o.data sh k
      + sh_sizeAt L o.data sh k / L.sizeof_Elf32_Sym * L.sizeof_Elf32_Sym ≤ o.data.length) :
    loadSectionHeaders L o
      = some (expectedLabels L o.data (sh_offsetAt L o.data sh k)
          (sh_offsetAt L o.data sh (sh_linkAt L o.data sh k))
          (sh_sizeAt L o.data sh k / L.sizeof_Elf32_Sym)) := by
  have hL2 := hL
  obtain ⟨_, _, _, _, _, _, _, ho, hs, _⟩ := hL
  have hmod : o.data.length % 2 ^ 32 = o.data.length := by omega
  have b0 := field_in_table htab hstr ho
  have b1 := field_in_table htab hlink ho
  have b2 := field_in_table htab hk ho
  have b3 := field_in_table htab hk hs
  have hnum16 := u16At_lt o.data L.e_shnum
  have hscan := sectionScan_last L hL2 o.data sh _ k htab hk hty hlast
    (u16At o.data L.e_shnum) 0 (-1, -1) (by omega) (Nat.zero_le k)
  have hlinkInt : toInt32 (sh_linkAt L o.data sh k) = (sh_linkAt L o.data sh k : Int) :=
    toInt32_of_lt (by omega)
  rw [hlinkInt] at hscan
  unfold loadSectionHeaders
  rw [hsh]
  simp only [Option.bind_eq_bind, readU32_of_le hshoff, Option.some_bind, hmod,
    if_neg (Nat.not_lt.mpr hoff), readU16_of_le hstrndx, readU32_of_le b0,
    readU16_of_le hshnum, hscan]
  have hnn : ((k : Int) ≥ 0 ∧ ((sh_linkAt L o.data sh k : Nat) : Int) ≥ 0) :=
    ⟨Int.ofNat_nonneg _, Int.ofNat_nonneg _⟩
  rw [if_pos hnn]
  simp only [Int.toNat_ofNat, readU32_of_le b1, readU32_of_le b2, readU32_of_le b3,
    Option.some_bind]
  have hloop := symbolLoop_eq L hL2 o.data (sh_offsetAt L o.data sh k)
    (sh_offsetAt L o.data sh (sh_linkAt L o.data sh k))
    (sh_sizeAt L o.data sh k / L.sizeof_Elf32_Sym) hsym
  unfold expectedLabels
  rw [filter_range_from_one]
  by_cases hz : sh_sizeAt L o.data sh k / L.sizeof_Elf32_Sym = 0
  · unfold sh_sizeAt at hz
    unfold sh_sizeAt
    rw [hz]
    rfl
  · exact hloop (sh_sizeAt L o.data sh k / L.sizeof_Elf32_Sym - 1) 1
      (Nat.add_sub_of_le (Nat.pos_of_ne_zero hz))

/-- Without a section of type 2 no label is registered. -/
theorem loadSectionHeaders_no_symtab (L : ElfLayout) (hL : L.WF) (o : ElfObject) (sh : Nat)
    (hsh : o.secthead = some sh)
    (hshoff : L.e_shoff + 4 ≤ o.data.length)
    (hstrndx : L.e_shstrndx + 2 ≤ o.data.length) (hshnum : L.e_shnum + 2 ≤ o.data.length)
    (htab : sh + u16At o.data L.e_shnum * L.sizeof_ELF_SHR ≤ o.data.length)
    (hstr : (if u16At o.data L.e_shstrndx = 0xffff then 0 else u16At o.data L.e_shstrndx)
      < u16At o.data L.e_shnum)
    (hno : ∀ j, j < u16At o.data L.e_shnum → sh_typeAt L o.data sh j ≠ 2) :
    loadSectionHeaders L o = some [] := by
  have hL2 := hL
  obtain ⟨_, _, _, _, _, _, _, ho, hs, _⟩ := hL
  have b0 := field_in_table htab hstr ho
  have hscan := sectionScan_keep L hL2 o.data sh _ htab
    (u16At o.data L.e_shnum) 0 (-1, -1) (by omega) (fun j _ hjN => hno j hjN)
  unfold loadSectionHeaders
  rw [hsh]
  simp only [Option.bind_eq_bind, readU32_of_le hshoff, Option.some_bind]
  split
  · rfl
  · simp only [Option.bind_eq_bind, readU16_of_le hstrndx, readU32_of_le b0,
      readU16_of_le hshnum, hscan, Option.some_bind]
    simp

/-- C5: on a well-formed image (header fields, section table, string-table entry
and symbol table inside the image) whose section table holds exactly one section
`k` of type 2 with `sh_link` inside the table, `loadSectionHeaders` makes exactly
the `AddLabel` calls of the symbol entries with index `>= 1`, non-zero `st_value`
and `st_info` low nibble 2, by increasing index, each with the name at offset
`st_name` of the linked string table and its `st_value`; entry 0 is never
registered; without a section of type 2 nothing is registered. -/
theorem loadSectionHeaders_registers_function_symbols (L : ElfLayout) (hL : L.WF)
    (o : ElfObject) (sh : Nat) (hsh : o.secthead = some sh) (hlen : o.data.length < 2 ^ 31)
    (hshoff : L.e_shoff + 4 ≤ o.data.length)
    (hoff : u32At o.data L.e_shoff ≤ o.data.length)
    (hstrndx : L.e_shstrndx + 2 ≤ o.data.length) (hshnum : L.e_shnum + 2 ≤ o.data.length)
    (htab : sh + u16At o.data L.e_shnum * L.sizeof_ELF_SHR ≤ o.data.length)
    (hstr : (if u16At o.data L.e_shstrndx = 0xffff then 0 else u16At o.data L.e_shstrndx)
      < u16At o.data L.e_shnum) :
    (∀ k, k < u16At o.data L.e_shnum → sh_typeAt L o.data sh k = 2 →
        (∀ j, j < u16At o.data L.e_shnum → j ≠ k → sh_typeAt L o.data sh j ≠ 2) →
        sh_linkAt L o.data sh k < u16At o.data L.e_shnum →
        sh_offsetAt L o.data sh k
          + sh_sizeAt L o.data sh k / L.sizeof_Elf32_Sym * L.sizeof_Elf32_Sym ≤ o.data.length →
        loadSectionHeaders L o
            = some (expectedLabels L o.data (sh_offsetAt L o.data sh k)
                (sh_offsetAt L o.data sh (sh_linkAt L o.data sh k))
                (sh_sizeAt L o.data sh k / L.sizeof_Elf32_Sym)) ∧
          ∀ symNames n, labelOf L o.data (sh_offsetAt L o.data sh k) symNames 0 ∈
              expectedLabels L o.data (sh_offsetAt L o.data sh k) symNames n →
            ∃ i, 1 ≤ i ∧ i < n ∧ isFunctionSymbol L o.data (sh_offsetAt L o.data sh k) i = true ∧
              labelOf L o.data (sh_offsetAt L o.data sh k) symNames i
                = labelOf L o.data (sh_offsetAt L o.data sh k) symNames 0) ∧
      ((∀ j, j < u16At o.data L.e_shnum → sh_typeAt L o.data sh j ≠ 2) →
        loadSectionHeaders L o = some []) := by
  refine ⟨fun k hk hty hone hlink hsym => ⟨?_, ?_⟩, fun hno => ?_⟩
  · exact loadSectionHeaders_last L hL o sh k hsh hlen hshoff hoff hstrndx hshnum htab hstr hk
      hty (fun j hkj hj => hone j hj (by omega)) hlink hsym
  · intro symNames n hmem
    unfold expectedLabels at hmem
    obtain ⟨i, hi, hieq⟩ := List.mem_map.mp hmem
    obtain ⟨hir, hq⟩ := List.mem_filter.mp hi
    simp only [Bool.and_eq_true, decide_eq_true_eq] at hq
    exact ⟨i, hq.1, List.mem_range.mp hir, hq.2, hieq⟩
  · exact loadSectionHeaders_no_symtab L hL o sh hsh hshoff hstrndx hshnum htab hstr hno

set_option maxRecDepth 100000 in
/-- Witness for C5: `symImage` has one symbol table (section 1) linked to the
string table at offset 252; entries 1 and 4 are registered, entry 0 (a function
symbol with non-zero value), entry 2 (value 0) and entry 3 (an object) are not. -/
theorem loadSectionHeaders_registers_function_symbols_witness :
    initElfHeaders elf32 (ElfObject.init symImage) = some ⟨symImage, none, some 52⟩ ∧
      isFunctionSymbol elf32 symImage 172 0 = true ∧
      loadSectionHeaders elf32 ⟨symImage, none, some 52⟩
        = some [⟨253, 0x100000⟩, ⟨264, 0x100080⟩] :=
  ⟨by decide, by decide,
    ((loadSectionHeaders_registers_function_symbols elf32 (by decide)
      ⟨symImage, none, some 52⟩ 52 rfl (by decide) (by decide) (by decide) (by decide)
      (by decide) (by decide) (by decide)).1 1 (by decide) (by decide) (by decide) (by decide)
      (by decide)).1.trans (by decide)⟩

/-! ## Construction -/

theorem checkElfSize_eq (size : Int) :
    checkElfSize size =
      if size > 0xfffffff ∨ size = -1 ∨ size = 0 then Except.error ElfError.BadStream
      else Except.ok () := by
  unfold checkElfSize checkElfSize_diagMsg
  by_cases h1 : size > 0xfffffff
  · simp [h1]; rfl
  · by_cases h2 : size = -1
    · simp [h2]; rfl
    · by_cases h3 : size = 0
      · simp [h3]; rfl
      · simp [h1, h2, h3]; rfl

theorem rawByteAt_of_lt {d : List u8} (beyond : Nat → u8) {i : Nat} (h : i < d.length) :
    rawByteAt d beyond i = byteAt d i := by
  unfold rawByteAt
  rw [if_pos h]

theorem rawU16At_of_le {d : List u8} (beyond : Nat → u8) {off : Nat}
    (h : off + 2 ≤ d.length) : rawU16At d beyond off = u16At d off := by
  unfold rawU16At u16At
  rw [rawByteAt_of_lt beyond (by omega), rawByteAt_of_lt beyond (by omega)]

theorem rawU32At_of_le {d : List u8} (beyond : Nat → u8) {off : Nat}
    (h : off + 4 ≤ d.length) : rawU32At d beyond off = u32At d off := by
  unfold rawU32At u32At
  rw [rawByteAt_of_lt beyond (by omega), rawByteAt_of_lt beyond (by omega),
    rawByteAt_of_lt beyond (by omega), rawByteAt_of_lt beyond (by omega)]

theorem rawByteAt_lt (d : List u8) (beyond : Nat → u8) (i : Nat) :
    rawByteAt d beyond i < 256 := by
  unfold rawByteAt
  split
  · exact byteAt_lt d i
  · exact (beyond i).isLt

theorem rawU32At_lt (d : List u8) (beyond : Nat → u8) (off : Nat) :
    rawU32At d beyond off < 2 ^ 32 := by
  have h0 := rawByteAt_lt d beyond off
  have h1 := rawByteAt_lt d beyond (off + 1)
  have h2 := rawByteAt_lt d beyond (off + 2)
  have h3 := rawByteAt_lt d beyond (off + 3)
  unfold rawU32At
  omega

theorem readU16_eq_some {d : List u8} {off v : Nat} (h : readU16 d off = some v) :
    off + 2 ≤ d.length ∧ v = u16At d off := by
  unfold readU16 at h
  by_cases hb : off + 2 ≤ d.length
  · rw [if_pos hb] at h
    exact ⟨hb, (Option.some.inj h).symm⟩
  · rw [if_neg hb] at h
    cases h

theorem readU32_eq_some {d : List u8} {off v : Nat} (h : readU32 d off = some v) :
    off + 4 ≤ d.length ∧ v = u32At d off := by
  unfold readU32 at h
  by_cases hb : off + 4 ≤ d.length
  · rw [if_pos hb] at h
    exact ⟨hb, (Option.some.inj h).symm⟩
  · rw [if_neg hb] at h
    cases h

/-- One table pointer, checked: the count is read, and the offset only when the
count is positive. -/
theorem initElfHeaders_raw_step (d : List u8) (beyond : Nat → u8) (num off S : Nat)
    (o : ElfObject) (f : Nat → ElfObject) (r : ElfObject)
    (h : (do
        let n ← readU16 d num
        if n > 0 then do
          let p ← readU32 d off
          if (p + S) % 2 ^ 64 ≤ d.length then pure (f p) else pure o
        else pure o) = some r) :
    (if rawU16At d beyond num > 0 then
      if (rawU32At d beyond off + S) % 2 ^ 64 ≤ d.length then f (rawU32At d beyond off) else o
    else o) = r := by
  cases hn : readU16 d num with
  | none => rw [hn] at h; cases h
  | some n =>
    obtain ⟨hb, hv⟩ := readU16_eq_some hn
    rw [hn] at h
    simp only [Option.bind_eq_bind, Option.some_bind] at h
    rw [rawU16At_of_le beyond hb, ← hv]
    by_cases hpos : n > 0
    · rw [if_pos hpos] at h
      rw [if_pos hpos]
      cases hp : readU32 d off with
      | none => rw [hp] at h; cases h
      | some p =>
        obtain ⟨hb2, hv2⟩ := readU32_eq_some hp
        rw [hp] at h
        simp only [Option.some_bind] at h
        rw [rawU32At_of_le beyond hb2, ← hv2]
        by_cases hfit : (p + S) % 2 ^ 64 ≤ d.length
        · rw [if_pos hfit] at h
          rw [if_pos hfit]
          exact Option.some.inj h
        · rw [if_neg hfit] at h
          rw [if_neg hfit]
          exact Option.some.inj h
    · rw [if_neg hpos] at h
      rw [if_neg hpos]
      exact Option.some.inj h

/-- Whenever the bounds-checked `initElfHeaders` returns an object, the
unchecked run returns the same object, whatever memory follows the buffer. -/
theorem initElfHeaders_raw_of_some (L : ElfLayout) (beyond : Nat → u8) (o r : ElfObject)
    (h : initElfHeaders L o = some r) : initElfHeaders_raw L beyond o = r := by
  have hsplit : initElfHeaders L o =
      ((do
          let n ← readU16 o.data L.e_phnum
          if n > 0 then do
            let p ← readU32 o.data L.e_phoff
            if (p + L.sizeof_ELF_PHR) % 2 ^ 64 ≤ o.data.length then
              pure ({ o with proghead := some p } : ElfObject)
            else pure o
          else pure o) >>= fun o1 => (do
          let n ← readU16 o1.data L.e_shnum
          if n > 0 then do
            let p ← readU32 o1.data L.e_shoff
            if (p + L.sizeof_ELF_SHR) % 2 ^ 64 ≤ o1.data.length then
              pure ({ o1 with secthead := some p } : ElfObject)
            else pure o1
          else pure o1)) := by
    unfold initElfHeaders
    cases readU16 o.data L.e_phnum with
    | none => rfl
    | some n =>
      by_cases hpos : n > 0
      · cases readU32 o.data L.e_phoff with
        | none => simp [hpos]
        | some p =>
          by_cases hfit : (p + L.sizeof_ELF_PHR) % 18446744073709551616 ≤ o.data.length
          · simp [hpos, hfit]
          · simp [hpos, hfit]
      · simp [hpos]
  rw [hsplit] at h
  obtain ⟨o1, hA, hB⟩ := Option.bind_eq_some.mp h
  have e1 := initElfHeaders_raw_step o.data beyond L.e_phnum L.e_phoff L.sizeof_ELF_PHR o
    (fun p => { o with proghead := some p }) o1 hA
  have e2 := initElfHeaders_raw_step o1.data beyond L.e_shnum L.e_shoff L.sizeof_ELF_SHR o1
    (fun p => { o1 with secthead := some p }) r hB
  unfold initElfHeaders_raw
  dsimp only
  rw [e1]
  exact e2

/-- The ways construction can end, in the order the constructor reaches them. -/
theorem ElfObject_ctor_eq (L : ElfLayout) (alloc : Int → Bool) (beyond : Nat → u8)
    (file : List u8) (size : Int) :
    ElfObject.ctor L alloc beyond file size =
      if alloc size = false then Except.error ElfError.OutOfMemory
      else if size > 0xfffffff ∨ size = -1 ∨ size = 0 then Except.error ElfError.BadStream
      else if (((IsoFile_read file size).length : Nat) : Int) < size then
        Except.error ElfError.EndOfStream
      else Except.ok (initElfHeaders_raw L beyond (ElfObject.init (IsoFile_read file size))) := by
  unfold ElfObject.ctor SafeArray_ctor readIso
  rw [checkElfSize_eq]
  cases ha : alloc size with
  | false => rfl
  | true =>
    simp only [if_true, Bool.true_eq_false, if_false]
    by_cases h : size > 0xfffffff ∨ size = -1 ∨ size = 0
    · rw [if_pos h, if_pos h]; rfl
    · rw [if_neg h, if_neg h]
      by_cases h2 : (((IsoFile_read file size).length : Nat) : Int) < size
      · simp only [h2, if_true]; rfl
      · simp only [h2, if_false]
        rfl

/-- When the buffer cannot be constructed, construction ends there. -/
theorem ElfObject_ctor_OutOfMemory (L : ElfLayout) (alloc : Int → Bool) (beyond : Nat → u8)
    (file : List u8) (size : Int) (h : alloc size = false) :
    ElfObject.ctor L alloc beyond file size = Except.error ElfError.OutOfMemory := by
  rw [ElfObject_ctor_eq, if_pos h]

/-- With an accepted size and a full read, construction returns the object
`initElfHeaders` leaves, whatever the bytes are and whatever follows the buffer. -/
theorem ElfObject_ctor_returns (L : ElfLayout) (alloc : Int → Bool) (beyond : Nat → u8)
    (file : List u8) (size : Int) (halloc : alloc size = true)
    (hsize : ¬ (size > 0xfffffff ∨ size = -1 ∨ size = 0))
    (hfull : ¬ (((IsoFile_read file size).length : Nat) : Int) < size) :
    ElfObject.ctor L alloc beyond file size
      = Except.ok (initElfHeaders_raw L beyond (ElfObject.init (IsoFile_read file size))) := by
  rw [ElfObject_ctor_eq, if_neg (by simp [halloc]), if_neg hsize, if_neg hfull]

/-- With an accepted size, a full read and an image that holds the header fields,
construction returns the object of the bounds-checked `initElfHeaders`. -/
theorem ElfObject_ctor_ok (L : ElfLayout) (hL : L.WF) (alloc : Int → Bool) (beyond : Nat → u8)
    (file : List u8) (size : Nat) (halloc : alloc (size : Int) = true)
    (h1 : size ≤ 0xfffffff) (hfile : size ≤ file.length)
    (hphnum : L.e_phnum + 2 ≤ size) (hphoff : L.e_phoff + 4 ≤ size)
    (hshnum : L.e_shnum + 2 ≤ size) (hshoff : L.e_shoff + 4 ≤ size) :
    ∃ o, initElfHeaders L (ElfObject.init (file.take size)) = some o ∧
      ElfObject.ctor L alloc beyond file (size : Int) = Except.ok o ∧
      o.data = file.take size := by
  have hlen : (file.take size).length = size := by
    rw [List.length_take]; omega
  obtain ⟨o, ho, hd, _⟩ := initElfHeaders_headers_readable L hL (file.take size)
    (by omega) (by omega) (by omega) (by omega)
  refine ⟨o, ho, ?_, hd⟩
  have hr : IsoFile_read file (size : Int) = file.take size := by
    simp [IsoFile_read]
  rw [ElfObject_ctor_returns L alloc beyond file size halloc (by omega)
    (by rw [hr, hlen]; omega), hr, initElfHeaders_raw_of_some L beyond _ o ho]

/-- On the 4-byte file `7f 45 4c 46` the header reads leave the buffer; whatever
they return, `e_phoff + sizeof(ELF_PHR) <= 4` and `e_shoff + sizeof(ELF_SHR) <=
4` are false, so the constructor returns with both pointers null. -/
theorem ElfObject_ctor_short_image (alloc : Int → Bool) (beyond : Nat → u8)
    (halloc : alloc 4 = true) :
    ElfObject.ctor elf32 alloc beyond [0x7f, 0x45, 0x4c, 0x46] 4
      = Except.ok ⟨[0x7f, 0x45, 0x4c, 0x46], none, none⟩ := by
  rw [ElfObject_ctor_returns elf32 alloc beyond _ 4 halloc (by decide) (by decide)]
  have hr : IsoFile_read [0x7f, 0x45, 0x4c, 0x46] 4 = [0x7f, 0x45, 0x4c, 0x46] := rfl
  rw [hr]
  have b0 := rawU32At_lt [0x7f, 0x45, 0x4c, 0x46] beyond 28
  have b1 := rawU32At_lt [0x7f, 0x45, 0x4c, 0x46] beyond 32
  have hp : ¬ (rawU32At [0x7f, 0x45, 0x4c, 0x46] beyond 28 + 32) % 2 ^ 64
      ≤ ([0x7f, 0x45, 0x4c, 0x46] : List u8).length := by
    simp only [List.length_cons, List.length_nil]
    omega
  have hs : ¬ (rawU32At [0x7f, 0x45, 0x4c, 0x46] beyond 32 + 40) % 2 ^ 64
      ≤ ([0x7f, 0x45, 0x4c, 0x46] : List u8).length := by
    simp only [List.length_cons, List.length_nil]
    omega
  congr 1
  unfold initElfHeaders_raw ElfObject.init elf32
  dsimp only
  rw [if_neg hp]
  simp only [ite_self]
  rw [if_neg hs]
  simp only [ite_self]

/-- C7: after `ApplySanityCheck` every declared implication holds:
`fpuExtraOverflow` implies `fpuOverflow`; `fpuFullMode` implies `fpuOverflow` and
`fpuExtraOverflow`; `vuExtraOverflow` implies `vuOverflow`; `vuSignOverflow`
implies `vuExtraOverflow`. -/
theorem ApplySanityCheck_establishes_implications (s : RecompilerOptions) :
    (s.ApplySanityCheck.fpuExtraOverflow = true → s.ApplySanityCheck.fpuOverflow = true) ∧
      (s.ApplySanityCheck.fpuFullMode = true →
        s.ApplySanityCheck.fpuOverflow = true ∧ s.ApplySanityCheck.fpuExtraOverflow = true) ∧
      (s.ApplySanityCheck.vuExtraOverflow = true → s.ApplySanityCheck.vuOverflow = true) ∧
      (s.ApplySanityCheck.vuSignOverflow = true →
        s.ApplySanityCheck.vuExtraOverflow = true) := by
  obtain ⟨e1, e2, e3, e4, v1, v2, v3, v4, f1, f2, f3, r⟩ := s
  cases v1 <;> cases v2 <;> cases v3 <;> cases f1 <;> cases f2 <;> cases f3 <;>
    simp [RecompilerOptions.ApplySanityCheck, RecompilerOptions.ctor]

/-- C8: a violation in the floating-point group only resets that group to
`(true, false, false)` and leaves the four vector-unit fields unchanged; a
violation in the vector-unit group only resets that group to
`(true, false, false, false)` and leaves the floating-point fields unchanged. -/
theorem ApplySanityCheck_resets_offending_group (s : RecompilerOptions) :
    (fpuViolated s → ¬ vuViolated s →
        s.ApplySanityCheck.fpuOverflow = true ∧ s.ApplySanityCheck.fpuExtraOverflow = false ∧
        s.ApplySanityCheck.fpuFullMode = false ∧
        s.ApplySanityCheck.vuOverflow = s.vuOverflow ∧
        s.ApplySanityCheck.vuExtraOverflow = s.vuExtraOverflow ∧
        s.ApplySanityCheck.vuSignOverflow = s.vuSignOverflow ∧
        s.ApplySanityCheck.vuUnderflow = s.vuUnderflow) ∧
      (vuViolated s → ¬ fpuViolated s →
        s.ApplySanityCheck.vuOverflow = true ∧ s.ApplySanityCheck.vuExtraOverflow = false ∧
        s.ApplySanityCheck.vuSignOverflow = false ∧ s.ApplySanityCheck.vuUnderflow = false ∧
        s.ApplySanityCheck.fpuOverflow = s.fpuOverflow ∧
        s.ApplySanityCheck.fpuExtraOverflow = s.fpuExtraOverflow ∧
        s.ApplySanityCheck.fpuFullMode = s.fpuFullMode) := by
  obtain ⟨e1, e2, e3, e4, v1, v2, v3, v4, f1, f2, f3, r⟩ := s
  cases v1 <;> cases v2 <;> cases v3 <;> cases v4 <;> cases f1 <;> cases f2 <;> cases f3 <;>
    simp [RecompilerOptions.ApplySanityCheck, RecompilerOptions.ctor, fpuViolated, vuViolated]

/-- Witness for C8: `fpuExtraOverflow = true` with `fpuOverflow = false`, and a
valid vector-unit group with `vuUnderflow = true`. -/
theorem ApplySanityCheck_resets_offending_group_witness :
    fpuViolated ⟨true, true, true, true, true, true, false, true, false, true, false, 0⟩ ∧
      ¬ vuViolated ⟨true, true, true, true, true, true, false, true, false, true, false, 0⟩ ∧
      RecompilerOptions.ApplySanityCheck
          ⟨true, true, true, true, true, true, false, true, false, true, false, 0⟩
        = ⟨true, true, true, true, true, true, false, true, true, false, false, 0⟩ ∧
      (RecompilerOptions.ApplySanityCheck
          ⟨true, true, true, true, true, true, false, true, false, true, false, 0⟩).vuUnderflow
        = true :=
  ⟨by decide, by decide, by decide,
    ((ApplySanityCheck_resets_offending_group
      ⟨true, true, true, true, true, true, false, true, false, true, false, 0⟩).1
      (by decide) (by decide)).2.2.2.2.2.2⟩

/-- C9: `ApplySanityCheck` is idempotent. -/
theorem ApplySanityCheck_idempotent (s : RecompilerOptions) :
    s.ApplySanityCheck.ApplySanityCheck = s.ApplySanityCheck := by
  obtain ⟨e1, e2, e3, e4, v1, v2, v3, v4, f1, f2, f3, r⟩ := s
  cases v1 <;> cases v2 <;> cases v3 <;> cases f1 <;> cases f2 <;> cases f3 <;>
    simp [RecompilerOptions.ApplySanityCheck, RecompilerOptions.ctor]

/-! ## GamefixOptions -/

/-- C10: for every state and every `GamefixId`, `Get(id)` is true after
`Set(id, true)`, false after `Set(id, false)`, and false after `DisableAll()`. -/
theorem GamefixOptions_Set_Get_DisableAll (s : GamefixOptions) (id : GamefixId) :
    (s.Set id true).Get id = true ∧ (s.Set id false).Get id = false ∧
      s.DisableAll.Get id = false := by
  cases id <;> exact ⟨rfl, rfl, rfl⟩

/-! ## Gamefix lists -/

theorem GamefixOptions_Get_Set_same (s : GamefixOptions) (id : GamefixId) (v : Bool) :
    (s.Set id v).Get id = v := by
  cases id <;> rfl

theorem GamefixOptions_Get_Set_other (s : GamefixOptions) (id other : GamefixId) (v : Bool)
    (h : id ≠ other) : (s.Set id v).Get other = s.Get other := by
  cases id <;> cases other <;> first | rfl | exact absurd rfl h

theorem GamefixId_mem_all (id : GamefixId) : id ∈ GamefixId.all := by
  cases id <;> decide

/-- No two canonical names are equal up to letter case. -/
theorem EnumToString_lower_injective (i j : GamefixId)
    (h : (EnumToString i).toList.map Char.toLower = (EnumToString j).toList.map Char.toLower) :
    i = j := by
  cases i <;> cases j <;> first | rfl | exact absurd h (by decide)

theorem CmpNoCase_iff (a b : List Char) :
    CmpNoCase a b = true ↔ a.map Char.toLower = b.map Char.toLower := by
  simp [CmpNoCase]

theorem findGamefix_some (token : List Char) :
    ∀ (l : List GamefixId) (i : GamefixId), findGamefix token l = some i →
      CmpNoCase token (EnumToString i).toList = true := by
  intro l
  induction l with
  | nil => intro i h; cases h
  | cons j rest ih =>
    intro i h
    rw [findGamefix] at h
    by_cases hj : CmpNoCase token (EnumToString j).toList = true
    · rw [if_pos hj] at h
      cases h
      exact hj
    · rw [if_neg hj] at h
      exact ih i h

theorem findGamefix_none (token : List Char) :
    ∀ (l : List GamefixId), findGamefix token l = none →
      ∀ i, i ∈ l → CmpNoCase token (EnumToString i).toList = false := by
  intro l
  induction l with
  | nil => intro _ i hi; cases hi
  | cons j rest ih =>
    intro h i hi
    rw [findGamefix] at h
    by_cases hj : CmpNoCase token (EnumToString j).toList = true
    · rw [if_pos hj] at h; cases h
    · rw [if_neg hj] at h
      rcases List.mem_cons.mp hi with rfl | hr
      · simpa using hj
      · exact ih h i hr

/-- The search finds `i` exactly when the token is the name of `i` up to case. -/
theorem findGamefix_all_iff (token : List Char) (i : GamefixId) :
    findGamefix token GamefixId.all = some i ↔
      CmpNoCase token (EnumToString i).toList = true := by
  constructor
  · exact findGamefix_some token _ i
  · intro h
    cases hf : findGamefix token GamefixId.all with
    | none =>
      have := findGamefix_none token _ hf i (GamefixId_mem_all i)
      rw [h] at this; cases this
    | some j =>
      have hj := findGamefix_some token _ j hf
      rw [CmpNoCase_iff] at h hj
      rw [EnumToString_lower_injective j i (hj.symm.trans h)]

theorem Set_token_Get (dflt : Bool) (s : GamefixOptions) (token : List Char) (id : GamefixId) :
    (GamefixOptions.Set_token dflt s token).Get id =
      if CmpNoCase token (EnumToString id).toList then dflt else s.Get id := by
  unfold GamefixOptions.Set_token
  by_cases h : CmpNoCase token (EnumToString id).toList = true
  · rw [(findGamefix_all_iff token id).mpr h, if_pos h]
    exact GamefixOptions_Get_Set_same s id dflt
  · rw [if_neg h]
    cases hf : findGamefix token GamefixId.all with
    | none => rfl
    | some j =>
      have hj := (findGamefix_all_iff token j).mp hf
      have hne : j ≠ id := by
        intro e; rw [e] at hj; exact h hj
      exact GamefixOptions_Get_Set_other s j id dflt hne

/-- After the tokens are applied, a flag holds the default argument when some
token names it, and its old value otherwise. -/
theorem foldl_Set_token_Get (dflt : Bool) (id : GamefixId) :
    ∀ (tokens : List (List Char)) (s : GamefixOptions),
      (tokens.foldl (GamefixOptions.Set_token dflt) s).Get id =
        if ∃ t, t ∈ tokens ∧ CmpNoCase t (EnumToString id).toList = true then dflt
        else s.Get id := by
  intro tokens
  induction tokens with
  | nil => intro s; simp
  | cons t rest ih =>
    intro s
    rw [List.foldl_cons, ih, Set_token_Get]
    by_cases h1 : ∃ u, u ∈ rest ∧ CmpNoCase u (EnumToString id).toList = true
    · have h2 : ∃ u, u ∈ t :: rest ∧ CmpNoCase u (EnumToString id).toList = true := by
        obtain ⟨u, hu, hc⟩ := h1
        exact ⟨u, List.mem_cons_of_mem _ hu, hc⟩
      rw [if_pos h1, if_pos h2]
    · rw [if_neg h1]
      by_cases h3 : CmpNoCase t (EnumToString id).toList = true
      · have h2 : ∃ u, u ∈ t :: rest ∧ CmpNoCase u (EnumToString id).toList = true :=
          ⟨t, List.mem_cons_self _ _, h3⟩
        rw [if_pos h3, if_pos h2]
      · have h2 : ¬ ∃ u, u ∈ t :: rest ∧ CmpNoCase u (EnumToString id).toList = true := by
          rintro ⟨u, hu, hc⟩
          rcases List.mem_cons.mp hu with rfl | hr
          · exact h3 hc
          · exact h1 ⟨u, hr, hc⟩
        rw [if_neg h3, if_neg h2]

/-- The list form never looks at `enabled`. -/
theorem Set_list_with_ignores_enabled (dflt : Bool) (s : GamefixOptions) (list : String) :
    GamefixOptions.Set_list_with dflt s list true
      = GamefixOptions.Set_list_with dflt s list false := rfl

set_option maxRecDepth 100000 in
/-- C11: after `Set(text, true)` a gamefix reads true iff it was true before or
some token of `text` is its canonical name up to letter case; a text none of
whose tokens is a name leaves the state as it was; and from the all-disabled
state `"XGKick,Bogus|FpuCompare"` enables exactly `Fix_XGKick` and
`Fix_FpuCompare`. -/
theorem Set_list_true_enables_named (s : GamefixOptions) (text : String) :
    (∀ id, (s.Set_list text true).Get id = true ↔
        (s.Get id = true ∨
          ∃ t, t ∈ wxStringTokenizer text.toList ∧
            CmpNoCase t (EnumToString id).toList = true)) ∧
      ((∀ t, t ∈ wxStringTokenizer text.toList → findGamefix t GamefixId.all = none) →
        s.Set_list text true = s) ∧
      wxStringTokenizer "XGKick,Bogus|FpuCompare".toList
        = ["XGKick".toList, "Bogus".toList, "FpuCompare".toList] ∧
      GamefixOptions.ctor.Set_list "XGKick,Bogus|FpuCompare" true
        = { GamefixOptions.ctor with XgKickHack := true, FpuCompareHack := true } ∧
      GamefixOptions.ctor.Set_list "xgkick|FPUCOMPARE,,nope" true
        = { GamefixOptions.ctor with XgKickHack := true, FpuCompareHack := true } := by
  refine ⟨fun id => ?_, fun hnone => ?_, by decide, by decide, by decide⟩
  · unfold GamefixOptions.Set_list GamefixOptions.Set_list_with
    rw [foldl_Set_token_Get]
    by_cases h : ∃ t, t ∈ wxStringTokenizer text.toList ∧
        CmpNoCase t (EnumToString id).toList = true
    · rw [if_pos h]
      exact ⟨fun _ => Or.inr h, fun _ => rfl⟩
    · rw [if_neg h]
      exact ⟨Or.inl, fun o => o.resolve_right h⟩
  · unfold GamefixOptions.Set_list GamefixOptions.Set_list_with
    generalize wxStringTokenizer text.toList = tokens at hnone
    induction tokens with
    | nil => rfl
    | cons t rest ih =>
      rw [List.foldl_cons]
      have ht : GamefixOptions.Set_token true s t = s := by
        unfold GamefixOptions.Set_token
        rw [hnone t (List.mem_cons_self _ _)]
      rw [ht]
      exact ih (fun u hu => hnone u (List.mem_cons_of_mem _ hu))

set_option maxRecDepth 100000 in
/-- C12 fails: the list form calls `Set( i )` without `enabled`.  From the
all-disabled state, `Set("XGKick", false)` leaves `Fix_XGKick` reading true, and
from a state with `Fix_XGKick` set it does not clear it. -/
theorem Set_list_false_does_not_clear :
    wxStringTokenizer "XGKick".toList = ["XGKick".toList] ∧
      CmpNoCase "XGKick".toList (EnumToString GamefixId.Fix_XGKick).toList = true ∧
      (GamefixOptions.ctor.Set_list "XGKick" false).Get GamefixId.Fix_XGKick = true ∧
      ((GamefixOptions.ctor.Set GamefixId.Fix_XGKick true).Set_list "XGKick" false).Get
        GamefixId.Fix_XGKick = true := by
  decide

/-! ## Identify -/

theorem Identify_of_identified (cpu : CpuidOracle) (c : x86capabilities)
    (h : c.isIdentified = true) : c.Identify cpu = c := by
  unfold x86capabilities.Identify
  rw [if_pos h]

theorem Identify_of_not_identified (cpu : CpuidOracle) (c : x86capabilities)
    (h : c.isIdentified = false) : c.Identify cpu = Identify_body cpu c := by
  unfold x86capabilities.Identify
  rw [if_neg (by simp [h])]

theorem Identify_body_isIdentified (cpu : CpuidOracle) (c : x86capabilities) :
    (Identify_body cpu c).isIdentified = true := rfl

theorem shiftRight_testBit_zero (x n : Nat) : (x >>> n).testBit 0 = x.testBit n := by
  rw [Nat.testBit_shiftRight, Nat.add_zero]

/-- The members `Identify_vendor` leaves as they are. -/
theorem Identify_vendor_frame (cpu : CpuidOracle) (c : x86capabilities) :
    (Identify_vendor cpu c).isIdentified = c.isIdentified ∧
      (Identify_vendor cpu c).Flags = c.Flags ∧
      (Identify_vendor cpu c).Flags2 = c.Flags2 ∧
      (Identify_vendor cpu c).SEFlag = c.SEFlag ∧
      (Identify_vendor cpu c).EFlags = c.EFlags ∧
      (Identify_vendor cpu c).EFlags2 = c.EFlags2 ∧
      (Identify_vendor cpu c).hasAVX = c.hasAVX ∧
      (Identify_vendor cpu c).hasFMA = c.hasFMA ∧
      (Identify_vendor cpu c).hasAVX2 = c.hasAVX2 ∧
      (Identify_vendor cpu c).hasMachineCheckArchitecture = c.hasMachineCheckArchitecture ∧
      (Identify_vendor cpu c).MXCSR_Mask = c.MXCSR_Mask := ⟨rfl, rfl, rfl, rfl, rfl, rfl, rfl, rfl, rfl, rfl, rfl⟩

/-- The members `Identify_leaf1` leaves as they are. -/
theorem Identify_leaf1_frame (cpu : CpuidOracle) (cmds : Nat) (c : x86capabilities) :
    (Identify_leaf1 cpu cmds c).isIdentified = c.isIdentified ∧
      (Identify_leaf1 cpu cmds c).VendorID = c.VendorID ∧
      (Identify_leaf1 cpu cmds c).VendorName = c.VendorName ∧
      (Identify_leaf1 cpu cmds c).SEFlag = c.SEFlag ∧
      (Identify_leaf1 cpu cmds c).EFlags = c.EFlags ∧
      (Identify_leaf1 cpu cmds c).EFlags2 = c.EFlags2 ∧
      (Identify_leaf1 cpu cmds c).hasAVX = c.hasAVX ∧
      (Identify_leaf1 cpu cmds c).hasFMA = c.hasFMA ∧
      (Identify_leaf1 cpu cmds c).hasAVX2 = c.hasAVX2 ∧
      (Identify_leaf1 cpu cmds c).hasMachineCheckArchitecture = c.hasMachineCheckArchitecture ∧
      (Identify_leaf1 cpu cmds c).MXCSR_Mask = c.MXCSR_Mask := by
  unfold Identify_leaf1
  split <;> exact ⟨rfl, rfl, rfl, rfl, rfl, rfl, rfl, rfl, rfl, rfl, rfl⟩

/-- The members `Identify_leaf7` leaves as they are. -/
theorem Identify_leaf7_frame (cpu : CpuidOracle) (cmds : Nat) (c : x86capabilities) :
    (Identify_leaf7 cpu cmds c).isIdentified = c.isIdentified ∧
      (Identify_leaf7 cpu cmds c).VendorID = c.VendorID ∧
      (Identify_leaf7 cpu cmds c).VendorName = c.VendorName ∧
      (Identify_leaf7 cpu cmds c).Flags = c.Flags ∧
      (Identify_leaf7 cpu cmds c).Flags2 = c.Flags2 ∧
      (Identify_leaf7 cpu cmds c).EFlags = c.EFlags ∧
      (Identify_leaf7 cpu cmds c).EFlags2 = c.EFlags2 ∧
      (Identify_leaf7 cpu cmds c).hasAVX = c.hasAVX ∧
      (Identify_leaf7 cpu cmds c).hasFMA = c.hasFMA ∧
      (Identify_leaf7 cpu cmds c).hasAVX2 = c.hasAVX2 ∧
      (Identify_leaf7 cpu cmds c).hasMachineCheckArchitecture = c.hasMachineCheckArchitecture ∧
      (Identify_leaf7 cpu cmds c).MXCSR_Mask = c.MXCSR_Mask := by
  unfold Identify_leaf7
  split <;> exact ⟨rfl, rfl, rfl, rfl, rfl, rfl, rfl, rfl, rfl, rfl, rfl, rfl⟩

/-- The members `Identify_extended` leaves as they are. -/
theorem Identify_extended_frame (cpu : CpuidOracle) (c : x86capabilities) :
    (Identify_extended cpu c).isIdentified = c.isIdentified ∧
      (Identify_extended cpu c).VendorID = c.VendorID ∧
      (Identify_extended cpu c).VendorName = c.VendorName ∧
      (Identify_extended cpu c).Flags = c.Flags ∧
      (Identify_extended cpu c).Flags2 = c.Flags2 ∧
      (Identify_extended cpu c).SEFlag = c.SEFlag ∧
      (Identify_extended cpu c).hasAVX = c.hasAVX ∧
      (Identify_extended cpu c).hasFMA = c.hasFMA ∧
      (Identify_extended cpu c).hasAVX2 = c.hasAVX2 ∧
      (Identify_extended cpu c).hasMachineCheckArchitecture = c.hasMachineCheckArchitecture ∧
      (Identify_extended cpu c).MXCSR_Mask = c.MXCSR_Mask := by
  unfold Identify_extended
  dsimp only
  split <;> exact ⟨rfl, rfl, rfl, rfl, rfl, rfl, rfl, rfl, rfl, rfl, rfl⟩

/-- The members `Identify_familyName` leaves as they are. -/
theorem Identify_familyName_frame (cpu : CpuidOracle) (c : x86capabilities) :
    (Identify_familyName cpu c).isIdentified = c.isIdentified ∧
      (Identify_familyName cpu c).VendorID = c.VendorID ∧
      (Identify_familyName cpu c).VendorName = c.VendorName ∧
      (Identify_familyName cpu c).Flags = c.Flags ∧
      (Identify_familyName cpu c).Flags2 = c.Flags2 ∧
      (Identify_familyName cpu c).SEFlag = c.SEFlag ∧
      (Identify_familyName cpu c).EFlags = c.EFlags ∧
      (Identify_familyName cpu c).EFlags2 = c.EFlags2 ∧
      (Identify_familyName cpu c).hasAVX = c.hasAVX ∧
      (Identify_familyName cpu c).hasFMA = c.hasFMA ∧
      (Identify_familyName cpu c).hasAVX2 = c.hasAVX2 ∧
      (Identify_familyName cpu c).hasMachineCheckArchitecture = c.hasMachineCheckArchitecture ∧
      (Identify_familyName cpu c).MXCSR_Mask = c.MXCSR_Mask := ⟨rfl, rfl, rfl, rfl, rfl, rfl, rfl, rfl, rfl, rfl, rfl, rfl, rfl⟩

/-- The members `Identify_flagsLow` leaves as they are. -/
theorem Identify_flagsLow_frame (c : x86capabilities) :
    (Identify_flagsLow c).isIdentified = c.isIdentified ∧
      (Identify_flagsLow c).VendorID = c.VendorID ∧
      (Identify_flagsLow c).VendorName = c.VendorName ∧
      (Identify_flagsLow c).Flags = c.Flags ∧
      (Identify_flagsLow c).Flags2 = c.Flags2 ∧
      (Identify_flagsLow c).SEFlag = c.SEFlag ∧
      (Identify_flagsLow c).EFlags = c.EFlags ∧
      (Identify_flagsLow c).EFlags2 = c.EFlags2 ∧
      (Identify_flagsLow c).hasAVX = c.hasAVX ∧
      (Identify_flagsLow c).hasFMA = c.hasFMA ∧
      (Identify_flagsLow c).hasAVX2 = c.hasAVX2 ∧
      (Identify_flagsLow c).MXCSR_Mask = c.MXCSR_Mask := ⟨rfl, rfl, rfl, rfl, rfl, rfl, rfl, rfl, rfl, rfl, rfl, rfl⟩

/-- The members `Identify_flagsHigh` leaves as they are. -/
theorem Identify_flagsHigh_frame (c : x86capabilities) :
    (Identify_flagsHigh c).isIdentified = c.isIdentified ∧
      (Identify_flagsHigh c).VendorID = c.VendorID ∧
      (Identify_flagsHigh c).VendorName = c.VendorName ∧
      (Identify_flagsHigh c).Flags = c.Flags ∧
      (Identify_flagsHigh c).Flags2 = c.Flags2 ∧
      (Identify_flagsHigh c).SEFlag = c.SEFlag ∧
      (Identify_flagsHigh c).EFlags = c.EFlags ∧
      (Identify_flagsHigh c).EFlags2 = c.EFlags2 ∧
      (Identify_flagsHigh c).hasAVX = c.hasAVX ∧
      (Identify_flagsHigh c).hasFMA = c.hasFMA ∧
      (Identify_flagsHigh c).hasAVX2 = c.hasAVX2 ∧
      (Identify_flagsHigh c).hasMachineCheckArchitecture = c.hasMachineCheckArchitecture ∧
      (Identify_flagsHigh c).MXCSR_Mask = c.MXCSR_Mask := ⟨rfl, rfl, rfl, rfl, rfl, rfl, rfl, rfl, rfl, rfl, rfl, rfl, rfl⟩

/-- The members `Identify_flags2` leaves as they are. -/
theorem Identify_flags2_frame (c : x86capabilities) :
    (Identify_flags2 c).isIdentified = c.isIdentified ∧
      (Identify_flags2 c).VendorID = c.VendorID ∧
      (Identify_flags2 c).VendorName = c.VendorName ∧
      (Identify_flags2 c).Flags = c.Flags ∧
      (Identify_flags2 c).Flags2 = c.Flags2 ∧
      (Identify_flags2 c).SEFlag = c.SEFlag ∧
      (Identify_flags2 c).EFlags = c.EFlags ∧
      (Identify_flags2 c).EFlags2 = c.EFlags2 ∧
      (Identify_flags2 c).hasAVX = c.hasAVX ∧
      (Identify_flags2 c).hasFMA = c.hasFMA ∧
      (Identify_flags2 c).hasAVX2 = c.hasAVX2 ∧
      (Identify_flags2 c).hasMachineCheckArchitecture = c.hasMachineCheckArchitecture ∧
      (Identify_flags2 c).MXCSR_Mask = c.MXCSR_Mask := ⟨rfl, rfl, rfl, rfl, rfl, rfl, rfl, rfl, rfl, rfl, rfl, rfl, rfl⟩

/-- The members `Identify_osxsave` leaves as they are. -/
theorem Identify_osxsave_frame (c : x86capabilities) :
    (Identify_osxsave c).isIdentified = c.isIdentified ∧
      (Identify_osxsave c).VendorID = c.VendorID ∧
      (Identify_osxsave c).VendorName = c.VendorName ∧
      (Identify_osxsave c).Flags = c.Flags ∧
      (Identify_osxsave c).Flags2 = c.Flags2 ∧
      (Identify_osxsave c).SEFlag = c.SEFlag ∧
      (Identify_osxsave c).EFlags = c.EFlags ∧
      (Identify_osxsave c).EFlags2 = c.EFlags2 ∧
      (Identify_osxsave c).hasMachineCheckArchitecture = c.hasMachineCheckArchitecture ∧
      (Identify_osxsave c).MXCSR_Mask = c.MXCSR_Mask := by
  unfold Identify_osxsave
  split <;> exact ⟨rfl, rfl, rfl, rfl, rfl, rfl, rfl, rfl, rfl, rfl⟩

/-- The members `Identify_tail` leaves as they are. -/
theorem Identify_tail_frame (c : x86capabilities) :
    (Identify_tail c).isIdentified = c.isIdentified ∧
      (Identify_tail c).VendorID = c.VendorID ∧
      (Identify_tail c).VendorName = c.VendorName ∧
      (Identify_tail c).Flags = c.Flags ∧
      (Identify_tail c).Flags2 = c.Flags2 ∧
      (Identify_tail c).SEFlag = c.SEFlag ∧
      (Identify_tail c).EFlags = c.EFlags ∧
      (Identify_tail c).EFlags2 = c.EFlags2 ∧
      (Identify_tail c).hasAVX = c.hasAVX ∧
      (Identify_tail c).hasFMA = c.hasFMA ∧
      (Identify_tail c).hasAVX2 = c.hasAVX2 ∧
      (Identify_tail c).hasMachineCheckArchitecture = c.hasMachineCheckArchitecture ∧
      (Identify_tail c).MXCSR_Mask = c.MXCSR_Mask := ⟨rfl, rfl, rfl, rfl, rfl, rfl, rfl, rfl, rfl, rfl, rfl, rfl, rfl⟩

theorem Identify_vendor_VendorName (cpu : CpuidOracle) (c : x86capabilities) :
    (Identify_vendor cpu c).VendorName
      = le32 (cpu.cpuid 0).ebx ++ le32 (cpu.cpuid 0).edx ++ le32 (cpu.cpuid 0).ecx := rfl

theorem Identify_vendor_VendorID (cpu : CpuidOracle) (c : x86capabilities) :
    (Identify_vendor cpu c).VendorID
      = vendorLoop (le32 (cpu.cpuid 0).ebx ++ le32 (cpu.cpuid 0).edx ++ le32 (cpu.cpuid 0).ecx)
          x86Vendor_Unknown 0 := rfl

theorem Identify_leaf1_Flags2 (cpu : CpuidOracle) (cmds : Nat) (c : x86capabilities) :
    (Identify_leaf1 cpu cmds c).Flags2
      = if cmds ≥ 1 then toU32 (cpu.cpuid 1).ecx else c.Flags2 := by
  unfold Identify_leaf1
  split <;> rfl

theorem Identify_leaf7_SEFlag (cpu : CpuidOracle) (cmds : Nat) (c : x86capabilities) :
    (Identify_leaf7 cpu cmds c).SEFlag
      = if cmds ≥ 7 then toU32 (cpu.cpuidex 7 0).ebx else c.SEFlag := by
  unfold Identify_leaf7
  split <;> rfl

theorem Identify_osxsave_gated (c : x86capabilities) :
    (Identify_osxsave c).hasAVX
        = (if c.Flags2.testBit 27 then c.Flags2.testBit 28 else c.hasAVX) ∧
      (Identify_osxsave c).hasFMA
        = (if c.Flags2.testBit 27 then c.Flags2.testBit 12 else c.hasFMA) ∧
      (Identify_osxsave c).hasAVX2
        = (if c.Flags2.testBit 27 then c.SEFlag.testBit 5 else c.hasAVX2) := by
  unfold Identify_osxsave
  rw [shiftRight_testBit_zero]
  split
  · refine ⟨?_, ?_, ?_⟩
    · exact shiftRight_testBit_zero _ _
    · exact shiftRight_testBit_zero _ _
    · exact shiftRight_testBit_zero _ _
  · exact ⟨rfl, rfl, rfl⟩

/-- The OS-gated flags, `Flags2` and `SEFlag` after the body has run. -/
theorem Identify_body_osxsave (cpu : CpuidOracle) (c : x86capabilities) :
    (Identify_body cpu c).Flags2
        = (if toU32 (cpu.cpuid 0).eax ≥ 1 then toU32 (cpu.cpuid 1).ecx else c.Flags2) ∧
      (Identify_body cpu c).SEFlag
        = (if toU32 (cpu.cpuid 0).eax ≥ 7 then toU32 (cpu.cpuidex 7 0).ebx else c.SEFlag) ∧
      (Identify_body cpu c).hasAVX
        = (if (Identify_body cpu c).Flags2.testBit 27 then (Identify_body cpu c).Flags2.testBit 28
            else c.hasAVX) ∧
      (Identify_body cpu c).hasFMA
        = (if (Identify_body cpu c).Flags2.testBit 27 then (Identify_body cpu c).Flags2.testBit 12
            else c.hasFMA) ∧
      (Identify_body cpu c).hasAVX2
        = (if (Identify_body cpu c).Flags2.testBit 27 then (Identify_body cpu c).SEFlag.testBit 5
            else c.hasAVX2) := by
  simp only [Identify_body, Identify_tail_frame, Identify_osxsave_frame, Identify_osxsave_gated,
    Identify_flags2_frame, Identify_flagsHigh_frame, Identify_flagsLow_frame,
    Identify_familyName_frame, Identify_extended_frame, Identify_leaf7_frame,
    Identify_leaf7_SEFlag, Identify_leaf1_frame, Identify_leaf1_Flags2, Identify_vendor_frame,
    and_self]

/-- C13: on a freshly constructed record, when bit 27 (OSXSAVE) of `Flags2` is
clear `Identify` leaves `hasAVX`, `hasFMA` and `hasAVX2` false whatever bits 28
and 12 of `Flags2` and bit 5 of `SEFlag` are; when it is set the three fields
are exactly those bits.  `Flags2` is ECX of leaf 1 (0 when leaf 1 is not
available). -/
theorem Identify_fresh_os_gated (cpu : CpuidOracle) (mxcsr : Nat) :
    (((x86capabilities.ctor mxcsr).Identify cpu).Flags2.testBit 27 = false →
        ((x86capabilities.ctor mxcsr).Identify cpu).hasAVX = false ∧
        ((x86capabilities.ctor mxcsr).Identify cpu).hasFMA = false ∧
        ((x86capabilities.ctor mxcsr).Identify cpu).hasAVX2 = false) ∧
      (((x86capabilities.ctor mxcsr).Identify cpu).Flags2.testBit 27 = true →
        ((x86capabilities.ctor mxcsr).Identify cpu).hasAVX
          = ((x86capabilities.ctor mxcsr).Identify cpu).Flags2.testBit 28 ∧
        ((x86capabilities.ctor mxcsr).Identify cpu).hasFMA
          = ((x86capabilities.ctor mxcsr).Identify cpu).Flags2.testBit 12 ∧
        ((x86capabilities.ctor mxcsr).Identify cpu).hasAVX2
          = ((x86capabilities.ctor mxcsr).Identify cpu).SEFlag.testBit 5) ∧
      ((x86capabilities.ctor mxcsr).Identify cpu).Flags2
        = (if toU32 (cpu.cpuid 0).eax ≥ 1 then toU32 (cpu.cpuid 1).ecx else 0) ∧
      ((x86capabilities.ctor mxcsr).Identify cpu).SEFlag
        = (if toU32 (cpu.cpuid 0).eax ≥ 7 then toU32 (cpu.cpuidex 7 0).ebx else 0) := by
  rw [Identify_of_not_identified cpu _ rfl]
  obtain ⟨h1, h2, h3, h4, h5⟩ := Identify_body_osxsave cpu (x86capabilities.ctor mxcsr)
  refine ⟨fun h => ?_, fun h => ?_, h1, h2⟩
  · rw [h3, h4, h5, h]
    exact ⟨rfl, rfl, rfl⟩
  · rw [h3, h4, h5, h]
    exact ⟨rfl, rfl, rfl⟩

set_option maxRecDepth 100000 in
/-- On `otherCpu` the AVX and FMA bits are set and OSXSAVE is clear: both flags
stay false.  On `intelCpu` OSXSAVE is set as well: both flags are true. -/
theorem Identify_os_gated_example :
    (otherCpu.cpuid 1).ecx.testBit 28 = true ∧ (otherCpu.cpuid 1).ecx.testBit 12 = true ∧
      (otherCpu.cpuid 1).ecx.testBit 27 = false ∧
      ((x86capabilities.ctor 0).Identify otherCpu).hasAVX = false ∧
      ((x86capabilities.ctor 0).Identify otherCpu).hasFMA = false ∧
      ((x86capabilities.ctor 0).Identify intelCpu).hasAVX = true ∧
      ((x86capabilities.ctor 0).Identify intelCpu).hasFMA = true := by
  decide

/-- C14: `Identify` is idempotent, also when the second call sees different
`cpuid` answers. -/
theorem Identify_idempotent (cpu1 cpu2 : CpuidOracle) (c : x86capabilities) :
    (c.Identify cpu1).Identify cpu2 = c.Identify cpu1 := by
  cases h : c.isIdentified with
  | true =>
    rw [Identify_of_identified cpu1 c h, Identify_of_identified cpu2 c h]
  | false =>
    rw [Identify_of_not_identified cpu1 c h]
    exact Identify_of_identified cpu2 _ (Identify_body_isIdentified cpu1 c)

theorem Identify_body_vendor (cpu : CpuidOracle) (c : x86capabilities) :
    (Identify_body cpu c).VendorName
        = le32 (cpu.cpuid 0).ebx ++ le32 (cpu.cpuid 0).edx ++ le32 (cpu.cpuid 0).ecx ∧
      (Identify_body cpu c).VendorID
        = vendorLoop (le32 (cpu.cpuid 0).ebx ++ le32 (cpu.cpuid 0).edx ++ le32 (cpu.cpuid 0).ecx)
            x86Vendor_Unknown 0 := by
  simp only [Identify_body, Identify_tail_frame, Identify_osxsave_frame,
    Identify_flags2_frame, Identify_flagsHigh_frame, Identify_flagsLow_frame,
    Identify_familyName_frame, Identify_extended_frame, Identify_leaf7_frame,
    Identify_leaf1_frame, Identify_vendor_VendorName, Identify_vendor_VendorID, and_self]

/-- The vendor search on a 12-byte string: the first table entry equal to it. -/
theorem vendorLoop_eq (name : List u8) (h : name.length = 12) :
    vendorLoop name x86Vendor_Unknown 0 =
      if name = asciiBytes "GenuineIntel" then 0
      else if name = asciiBytes "AuthenticAMD" then 1
      else x86Vendor_Unknown := by
  have ht : name.take 12 = name := List.take_of_length_le (by omega)
  have hi : (asciiBytes "GenuineIntel").take 12 = asciiBytes "GenuineIntel" := by decide
  have ha : (asciiBytes "AuthenticAMD").take 12 = asciiBytes "AuthenticAMD" := by decide
  have e0 : tbl_x86vendors.getD 0 "" = "GenuineIntel" := rfl
  have e1 : tbl_x86vendors.getD 1 "" = "AuthenticAMD" := rfl
  simp only [x86Vendor_Unknown, vendorLoop, memcmp12, ht, e0, e1, hi, ha, beq_iff_eq,
    Nat.zero_add]

/-- C15: when `Identify` runs (the record is not yet identified), the vendor
string is the little-endian bytes of EBX, EDX, ECX of leaf 0 in that order, and
`VendorID` is 0 when all 12 bytes equal `"GenuineIntel"`, else 1 when they equal
`"AuthenticAMD"`, else `x86Vendor_Unknown`. -/
theorem Identify_vendor_match (cpu : CpuidOracle) (c : x86capabilities)
    (h : c.isIdentified = false) :
    (c.Identify cpu).VendorName
        = le32 (cpu.cpuid 0).ebx ++ le32 (cpu.cpuid 0).edx ++ le32 (cpu.cpuid 0).ecx ∧
      (c.Identify cpu).VendorName.length = 12 ∧
      (c.Identify cpu).VendorID =
        (if (c.Identify cpu).VendorName = asciiBytes "GenuineIntel" then 0
        else if (c.Identify cpu).VendorName = asciiBytes "AuthenticAMD" then 1
        else x86Vendor_Unknown) := by
  rw [Identify_of_not_identified cpu c h]
  obtain ⟨h1, h2⟩ := Identify_body_vendor cpu c
  have hl : (le32 (cpu.cpuid 0).ebx ++ le32 (cpu.cpuid 0).edx ++ le32 (cpu.cpuid 0).ecx).length
      = 12 := rfl
  rw [h1, h2]
  exact ⟨rfl, hl, vendorLoop_eq _ hl⟩

set_option maxRecDepth 100000 in
/-- Witness for C15: `"GenuineIntel"` is vendor 0, and `"GenuineIntem"`, one byte
off, is `x86Vendor_Unknown`. -/
theorem Identify_vendor_match_witness :
    (x86capabilities.ctor 0).isIdentified = false ∧
      ((x86capabilities.ctor 0).Identify intelCpu).VendorName = asciiBytes "GenuineIntel" ∧
      ((x86capabilities.ctor 0).Identify intelCpu).VendorID = 0 ∧
      ((x86capabilities.ctor 0).Identify otherCpu).VendorName = asciiBytes "GenuineIntem" ∧
      ((x86capabilities.ctor 0).Identify otherCpu).VendorID = x86Vendor_Unknown :=
  ⟨rfl,
    (Identify_vendor_match intelCpu (x86capabilities.ctor 0) rfl).1.trans (by decide),
    (Identify_vendor_match intelCpu (x86capabilities.ctor 0) rfl).2.2.trans (by decide),
    (Identify_vendor_match otherCpu (x86capabilities.ctor 0) rfl).1.trans (by decide),
    (Identify_vendor_match otherCpu (x86capabilities.ctor 0) rfl).2.2.trans (by decide)⟩

/-! ## SIMD_EstablishMXCSRmask -/

/-- The mask in terms of the save-area value. -/
theorem SIMD_EstablishMXCSRmask_cases (fx : Fin 512 → u8) (c : x86capabilities) :
    (c.hasStreamingSIMDExtensions = false → c.SIMD_EstablishMXCSRmask fx = c) ∧
      (c.hasStreamingSIMDExtensions = true → fxsaveMask fx ≠ 0 →
        (c.SIMD_EstablishMXCSRmask fx).MXCSR_Mask = fxsaveMask fx) ∧
      (c.hasStreamingSIMDExtensions = true → fxsaveMask fx = 0 →
        c.hasStreamingSIMD2Extensions = true →
        (c.SIMD_EstablishMXCSRmask fx).MXCSR_Mask = 0xFFFF) ∧
      (c.hasStreamingSIMDExtensions = true → fxsaveMask fx = 0 →
        c.hasStreamingSIMD2Extensions = false →
        (c.SIMD_EstablishMXCSRmask fx).MXCSR_Mask = 0xFFBF) := by
  refine ⟨fun h => ?_, fun h hr => ?_, fun h hr h2 => ?_, fun h hr h2 => ?_⟩
  · simp [x86capabilities.SIMD_EstablishMXCSRmask, h]
  · simp [x86capabilities.SIMD_EstablishMXCSRmask, h, hr]
  · simp [x86capabilities.SIMD_EstablishMXCSRmask, h, hr, h2]
  · simp [x86capabilities.SIMD_EstablishMXCSRmask, h, hr, h2]

/-- C16: without SSE the record is unchanged; with SSE the mask is the 32-bit
little-endian value of bytes 28, 29, 30, 31 of the save area when that value is
non-zero, else `0xFFFF` with SSE2 and `0xFFBF` without. -/
theorem SIMD_EstablishMXCSRmask_mask (fx : Fin 512 → u8) (c : x86capabilities) :
    (c.hasStreamingSIMDExtensions = false → c.SIMD_EstablishMXCSRmask fx = c) ∧
      (c.hasStreamingSIMDExtensions = true →
        (fx 28).val + 256 * (fx 29).val + 65536 * (fx 30).val + 16777216 * (fx 31).val ≠ 0 →
        (c.SIMD_EstablishMXCSRmask fx).MXCSR_Mask
          = (fx 28).val + 256 * (fx 29).val + 65536 * (fx 30).val + 16777216 * (fx 31).val) ∧
      (c.hasStreamingSIMDExtensions = true →
        (fx 28).val + 256 * (fx 29).val + 65536 * (fx 30).val + 16777216 * (fx 31).val = 0 →
        c.hasStreamingSIMD2Extensions = true →
        (c.SIMD_EstablishMXCSRmask fx).MXCSR_Mask = 0xFFFF) ∧
      (c.hasStreamingSIMDExtensions = true →
        (fx 28).val + 256 * (fx 29).val + 65536 * (fx 30).val + 16777216 * (fx 31).val = 0 →
        c.hasStreamingSIMD2Extensions = false →
        (c.SIMD_EstablishMXCSRmask fx).MXCSR_Mask = 0xFFBF) :=
  SIMD_EstablishMXCSRmask_cases fx c

set_option maxRecDepth 100000 in
/-- The mask on concrete save areas: bytes 28..31 = `78 56 34 12` among bytes
`aa` give `0x12345678` with or without SSE2; zero bytes 28..31 among bytes `aa`
give `0xFFBF` without SSE2 and `0xFFFF` with it; without SSE the mask stays
`0x1234`. -/
theorem SIMD_EstablishMXCSRmask_example :
    (sseOnly.SIMD_EstablishMXCSRmask markedSaveArea).MXCSR_Mask = 0x12345678 ∧
      (sseAndSse2.SIMD_EstablishMXCSRmask markedSaveArea).MXCSR_Mask = 0x12345678 ∧
      (sseOnly.SIMD_EstablishMXCSRmask unmaskedSaveArea).MXCSR_Mask = 0xFFBF ∧
      (sseAndSse2.SIMD_EstablishMXCSRmask unmaskedSaveArea).MXCSR_Mask = 0xFFFF ∧
      ((x86capabilities.ctor 0x1234).SIMD_EstablishMXCSRmask markedSaveArea).MXCSR_Mask
        = 0x1234 := by
  decide

/-! ## Absent and malformed tables -/

/-- With `e_phnum = 0` the loop body never runs and the result is `(0,0)`. -/
theorem getTextRange_no_entries (L : ElfLayout) (o : ElfObject)
    (hnum : L.e_phnum + 2 ≤ o.data.length) (h0 : u16At o.data L.e_phnum = 0) :
    getTextRange L o = some (0, 0) := by
  simp only [getTextRange, Option.bind_eq_bind, readU16_of_le hnum, Option.some_bind, h0]
  rfl

/-- Without a program-header table and with `e_phnum > 0` the first iteration
goes through the null `proghead`. -/
theorem getTextRange_null_proghead (L : ElfLayout) (o : ElfObject)
    (hph : o.proghead = none) (hnum : L.e_phnum + 2 ≤ o.data.length)
    (hpos : 0 < u16At o.data L.e_phnum) : getTextRange L o = none := by
  simp only [getTextRange, Option.bind_eq_bind, readU16_of_le hnum, Option.some_bind]
  obtain ⟨n, hn⟩ := Nat.exists_eq_succ_of_ne_zero (Nat.pos_iff_ne_zero.mp hpos)
  rw [hn, getTextRangeLoop, hph]
  rfl

set_option maxRecDepth 100000 in
/-- C17 fails on `noTableImage`: `e_phnum = 1` and `e_phoff = 0xFFFFFFF0` lies
outside the 52-byte image, so `initElfHeaders` leaves `proghead` null and
`hasProgramHeaders()` is false; `getTextRange` still enters the loop and reads
`proghead[0].p_vaddr` through the null pointer instead of returning `(0,0)`. -/
theorem getTextRange_without_table :
    initElfHeaders elf32 (ElfObject.init noTableImage) = some ⟨noTableImage, none, none⟩ ∧
      hasProgramHeaders ⟨noTableImage, none, none⟩ = false ∧
      u16At noTableImage elf32.e_phnum = 1 ∧
      u32At noTableImage elf32.e_phoff = 0xFFFFFFF0 ∧
      getTextRange elf32 ⟨noTableImage, none, none⟩ = none := by
  decide

set_option maxRecDepth 100000 in
/-- C18 as stated fails: in `badStrndxImage` the string-table index is 4, not
`0xffff` and not below `e_shnum = 3`, yet the two function symbols of the symbol
table are registered. -/
theorem loadSectionHeaders_strndx_counterexample :
    initElfHeaders elf32 (ElfObject.init badStrndxImage)
        = some ⟨badStrndxImage, none, some 52⟩ ∧
      u16At badStrndxImage elf32.e_shstrndx = 4 ∧
      u16At badStrndxImage elf32.e_shnum = 3 ∧
      loadSectionHeaders elf32 ⟨badStrndxImage, none, some 52⟩
        = some [⟨253, 0x100000⟩, ⟨264, 0x100080⟩] := by
  decide

/-- C18 (as amended): `loadSectionHeaders` makes no `AddLabel` call when no
section-header table is present, and also when `e_shoff` is greater than the
image length, whatever the section table and the symbol table contain. -/
theorem loadSectionHeaders_guard (L : ElfLayout) (o : ElfObject) :
    (o.secthead = none → loadSectionHeaders L o = some []) ∧
      (∀ sh, o.secthead = some sh → L.e_shoff + 4 ≤ o.data.length →
        o.data.length < 2 ^ 31 → u32At o.data L.e_shoff > o.data.length →
        loadSectionHeaders L o = some []) := by
  constructor
  · intro h
    unfold loadSectionHeaders
    rw [h]
  · intro sh h hread hlen hgt
    have hmod : o.data.length % 2 ^ 32 = o.data.length := by omega
    unfold loadSectionHeaders
    rw [h]
    simp only [Option.bind_eq_bind, readU32_of_le hread, Option.some_bind, hmod, if_pos hgt]

set_option maxRecDepth 100000 in
/-- C19 fails on `truncatedTableImage`: the header declares `e_shnum = 2`
sections at offset 52 and the 92-byte image holds one.  `initElfHeaders` accepts
the table because the first entry fits (`52 + 40 <= 92`); `loadSectionHeaders`
then reads `secthead[1].sh_type` at offset 96, outside the buffer. -/
theorem loadSectionHeaders_reads_past_image :
    truncatedTableImage.length = 92 ∧
      initElfHeaders elf32 (ElfObject.init truncatedTableImage)
        = some ⟨truncatedTableImage, none, some 52⟩ ∧
      readU32 truncatedTableImage (52 + 1 * elf32.sizeof_ELF_SHR + elf32.sh_type) = none ∧
      loadSectionHeaders elf32 ⟨truncatedTableImage, none, some 52⟩ = none := by
  decide

/-! ## Checksum sensitivity -/

theorem byteAt_append_right (a b : List u8) {i : Nat} (h : a.length ≤ i) :
    byteAt (a ++ b) i = byteAt b (i - a.length) := by
  simp [byteAt, List.getD_eq_getElem?_getD, List.getElem?_append_right h]

theorem u32At_append_right (a b : List u8) {off : Nat} (h : a.length ≤ off) :
    u32At (a ++ b) off = u32At b (off - a.length) := by
  unfold u32At
  rw [byteAt_append_right a b h, byteAt_append_right a b (by omega : a.length ≤ off + 1),
    byteAt_append_right a b (by omega : a.length ≤ off + 2),
    byteAt_append_right a b (by omega : a.length ≤ off + 3)]
  have e1 : off + 1 - a.length = off - a.length + 1 := by omega
  have e2 : off + 2 - a.length = off - a.length + 2 := by omega
  have e3 : off + 3 - a.length = off - a.length + 3 := by omega
  rw [e1, e2, e3]

/-- The four bytes `le32 v` read back as `v` modulo `2^32`. -/
theorem u32At_le32 (v : Nat) (b : List u8) : u32At (le32 v ++ b) 0 = v % 2 ^ 32 := by
  simp only [u32At, byteAt, le32, List.cons_append, List.nil_append, List.getD_cons_zero,
    List.getD_cons_succ, Fin.ofNat, Nat.zero_add]
  omega

theorem replaceWord_length (d : List u8) (k v : Nat) (h : 4 * k + 4 ≤ d.length) :
    (replaceWord d k v).length = d.length := by
  simp only [replaceWord, le32, List.length_append, List.length_take, List.length_drop,
    List.length_cons, List.length_nil]
  omega

/-- The word at index `k` of the new buffer is `v`. -/
theorem u32At_replaceWord_self (d : List u8) (k v : Nat) (h : 4 * k + 4 ≤ d.length) :
    u32At (replaceWord d k v) (4 * k) = v % 2 ^ 32 := by
  have hl : (d.take (4 * k)).length = 4 * k := by
    rw [List.length_take]; omega
  unfold replaceWord
  rw [u32At_append_right _ _ (by omega), hl, Nat.sub_self, u32At_le32]

/-- Every other word of the new buffer is the old word. -/
theorem u32At_replaceWord_other (d : List u8) (k v j : Nat) (h : 4 * k + 4 ≤ d.length)
    (hj : j ≠ k) : u32At (replaceWord d k v) (4 * j) = u32At d (4 * j) := by
  have hl : (d.take (4 * k)).length = 4 * k := by
    rw [List.length_take]; omega
  rcases Nat.lt_or_gt_of_ne hj with hlt | hgt
  · have e : u32At d (4 * j) = u32At (d.take (4 * k) ++ d.drop (4 * k)) (4 * j) := by
      rw [List.take_append_drop]
    unfold replaceWord
    rw [e, u32At_append_left _ _ (by omega), u32At_append_left _ _ (by omega)]
  · have hl2 : (d.take (4 * k + 4)).length = 4 * k + 4 := by
      rw [List.length_take]; omega
    have hl3 : (d.take (4 * k) ++ le32 v).length = 4 * k + 4 := by
      rw [List.length_append, hl]; rfl
    have e : u32At d (4 * j) = u32At (d.take (4 * k + 4) ++ d.drop (4 * k + 4)) (4 * j) := by
      rw [List.take_append_drop]
    unfold replaceWord
    rw [e, ← List.append_assoc, u32At_append_right _ _ (by omega),
      u32At_append_right _ _ (by omega), hl2, hl3]

/-- Replacing word `k` changes the fold over `n > k` words by `old ^^^ new`. -/
theorem xorWords_replaceWord (d : List u8) (k v : Nat) (h : 4 * k + 4 ≤ d.length) :
    ∀ n, xorWords (replaceWord d k v) n =
      if k < n then xorWords d n ^^^ (u32At d (4 * k) ^^^ v % 2 ^ 32) else xorWords d n := by
  intro n
  induction n with
  | zero => simp [xorWords]
  | succ n ih =>
    rw [xorWords, xorWords, ih]
    by_cases hkn : k < n
    · rw [if_pos hkn, if_pos (by omega), u32At_replaceWord_other d k v n h (by omega)]
      simp only [Nat.xor_assoc]
      congr 1
      rw [← Nat.xor_assoc]
      exact Nat.xor_comm _ _
    · rw [if_neg hkn]
      by_cases hk : n = k
      · subst hk
        rw [if_pos (by omega), u32At_replaceWord_self d n v h]
        simp only [Nat.xor_assoc]
        congr 1
        rw [← Nat.xor_assoc, Nat.xor_self, Nat.zero_xor]
      · rw [if_neg (by omega), u32At_replaceWord_other d k v n h hk]

/-- C20: replacing a complete word of the image by a different 32-bit value
changes the checksum, and two objects with identical bytes have equal
checksums. -/
theorem getCRC_word_sensitive (o : ElfObject) (k v : Nat) (hlen : o.data.length < 2 ^ 31)
    (hk : 4 * k + 4 ≤ o.data.length) (hv : v < 2 ^ 32) (hne : v ≠ u32At o.data (4 * k)) :
    getCRC { o with data := replaceWord o.data k v } ≠ getCRC o ∧
      ∀ o2 : ElfObject, o2.data = o.data → getCRC o2 = getCRC o := by
  constructor
  · have hl := replaceWord_length o.data k v hk
    rw [getCRC_eq_xorWords o hlen,
      getCRC_eq_xorWords { o with data := replaceWord o.data k v } (by simp only [hl]; exact hlen)]
    simp only [hl]
    rw [xorWords_replaceWord o.data k v hk, if_pos (by omega), Nat.mod_eq_of_lt hv]
    intro heq
    have h1 := Option.some.inj heq
    have h2 : xorWords o.data (o.data.length / 4) ^^^ (u32At o.data (4 * k) ^^^ v)
        = xorWords o.data (o.data.length / 4) ^^^ 0 := by
      rw [h1, Nat.xor_zero]
    have h3 := Nat.xor_right_injective h2
    exact hne (Nat.xor_eq_zero.mp h3).symm
  · intro o2 h2
    unfold getCRC
    rw [h2]

/-- Witness for C20: the word `0x12345678` replaced by `0x12345679`. -/
theorem getCRC_word_sensitive_witness :
    (4 * 0 + 4 ≤ 6 ∧ (0x12345679 : Nat) < 2 ^ 32) ∧
      replaceWord [0x78, 0x56, 0x34, 0x12, 0xff, 0xff] 0 0x12345679
        = [0x79, 0x56, 0x34, 0x12, 0xff, 0xff] ∧
      getCRC ⟨[0x79, 0x56, 0x34, 0x12, 0xff, 0xff], none, none⟩
        ≠ getCRC ⟨[0x78, 0x56, 0x34, 0x12, 0xff, 0xff], none, none⟩ :=
  ⟨by decide, by decide,
    (getCRC_word_sensitive ⟨[0x78, 0x56, 0x34, 0x12, 0xff, 0xff], none, none⟩ 0 0x12345679
      (by decide) (by decide) (by decide) (by decide)).1⟩

/-! ## Several symbol tables -/

/-- C21: on a well-formed image, `loadSectionHeaders` registers exactly the
qualifying entries of the type-2 section of greatest index `k`, named through the
string table of that section's `sh_link`, however many sections of type 2 come
before it. -/
theorem loadSectionHeaders_last_symtab_wins (L : ElfLayout) (hL : L.WF) (o : ElfObject)
    (sh k : Nat) (hsh : o.secthead = some sh) (hlen : o.data.length < 2 ^ 31)
    (hshoff : L.e_shoff + 4 ≤ o.data.length)
    (hoff : u32At o.data L.e_shoff ≤ o.data.length)
    (hstrndx : L.e_shstrndx + 2 ≤ o.data.length) (hshnum : L.e_shnum + 2 ≤ o.data.length)
    (htab : sh + u16At o.data L.e_shnum * L.sizeof_ELF_SHR ≤ o.data.length)
    (hstr : (if u16At o.data L.e_shstrndx = 0xffff then 0 else u16At o.data L.e_shstrndx)
      < u16At o.data L.e_shnum)
    (hk : k < u16At o.data L.e_shnum) (hty : sh_typeAt L o.data sh k = 2)
    (hlast : ∀ j, k < j → j < u16At o.data L.e_shnum → sh_typeAt L o.data sh j ≠ 2)
    (hlink : sh_linkAt L o.data sh k < u16At o.data L.e_shnum)
    (hsym : sh_offsetAt L o.data sh k
      + sh_sizeAt L o.data sh k / L.sizeof_Elf32_Sym * L.sizeof_Elf32_Sym ≤ o.data.length) :
    loadSectionHeaders L o
      = some (expectedLabels L o.data (sh_offsetAt L o.data sh k)
          (sh_offsetAt L o.data sh (sh_linkAt L o.data sh k))
          (sh_sizeAt L o.data sh k / L.sizeof_Elf32_Sym)) :=
  loadSectionHeaders_last L hL o sh k hsh hlen hshoff hoff hstrndx hshnum htab hstr hk hty
    hlast hlink hsym

set_option maxRecDepth 100000 in
/-- Witness for C21: in `twoSymImage` sections 1 and 2 are symbol tables; the
function symbol of section 2 is registered, the one of section 1 is not. -/
theorem loadSectionHeaders_last_symtab_wins_witness :
    sh_typeAt elf32 twoSymImage 52 1 = 2 ∧ sh_typeAt elf32 twoSymImage 52 2 = 2 ∧
      isFunctionSymbol elf32 twoSymImage (sh_offsetAt elf32 twoSymImage 52 1) 1 = true ∧
      st_valueAt elf32 twoSymImage (sh_offsetAt elf32 twoSymImage 52 1) 1 = 0x111000 ∧
      loadSectionHeaders elf32 ⟨twoSymImage, none, some 52⟩ = some [⟨282, 0x222000⟩] :=
  ⟨by decide, by decide, by decide, by decide,
    (loadSectionHeaders_last_symtab_wins elf32 (by decide) ⟨twoSymImage, none, some 52⟩ 52 2
      rfl (by decide) (by decide) (by decide) (by decide) (by decide) (by decide) (by decide)
      (by decide) (by decide)
      (fun j h1 h2 => by
        have hn : u16At twoSymImage elf32.e_shnum = 4 := by decide
        have h3 : j < u16At twoSymImage elf32.e_shnum := h2
        rw [hn] at h3
        have hj : j = 3 := by omega
        subst hj
        decide)
      (by decide) (by decide)).trans (by decide)⟩

/-! ## Fixed points and frames of the configuration model -/

/-- C22: on a state that satisfies the four implications `ApplySanityCheck`
changes nothing; the default-constructed state is such a state; and on every
state the four enable flags (and the bits of `bitset` the code does not name)
keep their values. -/
theorem ApplySanityCheck_fixes_valid (s : RecompilerOptions) :
    ((s.fpuExtraOverflow = true → s.fpuOverflow = true) →
        (s.fpuFullMode = true → s.fpuOverflow = true ∧ s.fpuExtraOverflow = true) →
        (s.vuExtraOverflow = true → s.vuOverflow = true) →
        (s.vuSignOverflow = true → s.vuExtraOverflow = true) →
        s.ApplySanityCheck = s) ∧
      RecompilerOptions.ctor.ApplySanityCheck = RecompilerOptions.ctor ∧
      (s.ApplySanityCheck.EnableEE = s.EnableEE ∧ s.ApplySanityCheck.EnableIOP = s.EnableIOP ∧
        s.ApplySanityCheck.EnableVU0 = s.EnableVU0 ∧
        s.ApplySanityCheck.EnableVU1 = s.EnableVU1 ∧
        s.ApplySanityCheck.otherBits = s.otherBits) := by
  refine ⟨?_, by decide, ?_⟩
  · obtain ⟨e1, e2, e3, e4, v1, v2, v3, v4, f1, f2, f3, r⟩ := s
    cases v1 <;> cases v2 <;> cases v3 <;> cases f1 <;> cases f2 <;> cases f3 <;>
      simp [RecompilerOptions.ApplySanityCheck, RecompilerOptions.ctor]
  · obtain ⟨e1, e2, e3, e4, v1, v2, v3, v4, f1, f2, f3, r⟩ := s
    cases v1 <;> cases v2 <;> cases v3 <;> cases f1 <;> cases f2 <;> cases f3 <;>
      simp [RecompilerOptions.ApplySanityCheck, RecompilerOptions.ctor]

/-- C23: `Set(id, v)` leaves `Get(other)` as it was for every `other` distinct
from `id`. -/
theorem GamefixOptions_Set_frame (s : GamefixOptions) (id other : GamefixId) (v : Bool)
    (h : id ≠ other) : (s.Set id v).Get other = s.Get other :=
  GamefixOptions_Get_Set_other s id other v h

/-- Witness for C23: setting `Fix_XGKick` leaves `Fix_FpuCompare` as it was. -/
theorem GamefixOptions_Set_frame_witness :
    GamefixId.Fix_XGKick ≠ GamefixId.Fix_FpuCompare ∧
      ((GamefixOptions.ctor.Set GamefixId.Fix_FpuCompare true).Set GamefixId.Fix_XGKick
          true).Get GamefixId.Fix_FpuCompare
        = (GamefixOptions.ctor.Set GamefixId.Fix_FpuCompare true).Get
            GamefixId.Fix_FpuCompare :=
  ⟨by decide,
    GamefixOptions_Set_frame (GamefixOptions.ctor.Set GamefixId.Fix_FpuCompare true)
      GamefixId.Fix_XGKick GamefixId.Fix_FpuCompare true (by decide)⟩

/-! ## The raw word `Flags` and the decoded record -/

theorem setFlags_setFlags (F G : Nat) (c : x86capabilities) :
    setFlags G (setFlags F c) = setFlags G c := rfl

theorem setFlags_self (c : x86capabilities) : setFlags c.Flags c = c := rfl

theorem Identify_leaf7_setFlags (cpu : CpuidOracle) (cmds F : Nat) (c : x86capabilities) :
    Identify_leaf7 cpu cmds (setFlags F c) = setFlags F (Identify_leaf7 cpu cmds c) := by
  unfold Identify_leaf7
  split <;> rfl

theorem Identify_extended_setFlags (cpu : CpuidOracle) (F : Nat) (c : x86capabilities) :
    Identify_extended cpu (setFlags F c) = setFlags F (Identify_extended cpu c) := by
  unfold Identify_extended
  dsimp only
  split <;> rfl

theorem Identify_familyName_setFlags (cpu : CpuidOracle) (F : Nat) (c : x86capabilities) :
    Identify_familyName cpu (setFlags F c) = setFlags F (Identify_familyName cpu c) := rfl

theorem Identify_flags2_setFlags (F : Nat) (c : x86capabilities) :
    Identify_flags2 (setFlags F c) = setFlags F (Identify_flags2 c) := rfl

theorem Identify_osxsave_setFlags (F : Nat) (c : x86capabilities) :
    Identify_osxsave (setFlags F c) = setFlags F (Identify_osxsave c) := by
  unfold Identify_osxsave
  have e : (setFlags F c).Flags2 = c.Flags2 := rfl
  rw [e]
  split <;> rfl

theorem Identify_tail_setFlags (F : Nat) (c : x86capabilities) :
    Identify_tail (setFlags F c) = setFlags F (Identify_tail c) := rfl

theorem shifted_bit_congr (F G : Nat) (h : ∀ i, i ≠ 7 → F.testBit i = G.testBit i) (n : Nat)
    (hn : n ≠ 7) : (F >>> n).testBit 0 = (G >>> n).testBit 0 := by
  rw [shiftRight_testBit_zero, shiftRight_testBit_zero]
  exact h n hn

/-- Bits 0 to 14 of `Flags` other than bit 7 fix what `Identify_flagsLow` stores:
the value taken from bit 7 is overwritten by the one taken from bit 14. -/
theorem Identify_flagsLow_setFlags (F : Nat) (c : x86capabilities)
    (h : ∀ i, i ≠ 7 → F.testBit i = c.Flags.testBit i) :
    Identify_flagsLow (setFlags F c) = setFlags F (Identify_flagsLow c) := by
  have e := shifted_bit_congr F c.Flags h
  simp only [Identify_flagsLow, setFlags, e 0 (by decide), e 1 (by decide), e 2 (by decide), e 3 (by decide), e 4 (by decide), e 5 (by decide), e 6 (by decide), e 8 (by decide), e 9 (by decide), e 11 (by decide), e 12 (by decide), e 13 (by decide), e 14 (by decide)]

theorem Identify_flagsHigh_setFlags (F : Nat) (c : x86capabilities)
    (h : ∀ i, i ≠ 7 → F.testBit i = c.Flags.testBit i) :
    Identify_flagsHigh (setFlags F c) = setFlags F (Identify_flagsHigh c) := by
  have e := shifted_bit_congr F c.Flags h
  simp only [Identify_flagsHigh, setFlags, e 15 (by decide), e 16 (by decide), e 17 (by decide), e 18 (by decide), e 19 (by decide), e 21 (by decide), e 22 (by decide), e 24 (by decide), e 25 (by decide), e 26 (by decide), e 27 (by decide), e 29 (by decide), e 30 (by decide)]

theorem flipFlagsBit7_cpuid_other (cpu : CpuidOracle) (leaf : Nat) (h : leaf ≠ 1) :
    (flipFlagsBit7 cpu).cpuid leaf = cpu.cpuid leaf := by
  unfold flipFlagsBit7
  exact if_neg h

theorem flipFlagsBit7_cpuid_one (cpu : CpuidOracle) :
    (flipFlagsBit7 cpu).cpuid 1 = { cpu.cpuid 1 with edx := (cpu.cpuid 1).edx ^^^ 2 ^ 7 } :=
  rfl

/-- Flipping bit 7 of a register changes no other bit of the stored word. -/
theorem toU32_flip_testBit (e i : Nat) (hi : i ≠ 7) :
    (toU32 (e ^^^ 2 ^ 7)).testBit i = (toU32 e).testBit i := by
  unfold toU32
  rw [Nat.testBit_mod_two_pow, Nat.testBit_mod_two_pow, Nat.testBit_xor, Nat.testBit_two_pow]
  have h7 : decide (7 = i) = false := by simpa using fun h : 7 = i => hi h.symm
  rw [h7, Bool.xor_false]

/-- Leaf 1 of the flipped processor yields the same record up to `Flags`, and
`Flags` agrees in every bit but bit 7. -/
theorem Identify_leaf1_flip (cpu : CpuidOracle) (cmds : Nat) (c : x86capabilities) :
    Identify_leaf1 (flipFlagsBit7 cpu) cmds c
        = setFlags (Identify_leaf1 (flipFlagsBit7 cpu) cmds c).Flags (Identify_leaf1 cpu cmds c) ∧
      ∀ i, i ≠ 7 → (Identify_leaf1 (flipFlagsBit7 cpu) cmds c).Flags.testBit i
        = (Identify_leaf1 cpu cmds c).Flags.testBit i := by
  unfold Identify_leaf1
  rw [flipFlagsBit7_cpuid_one]
  by_cases h : cmds ≥ 1
  · rw [if_pos h, if_pos h]
    exact ⟨rfl, fun i hi => toU32_flip_testBit _ i hi⟩
  · rw [if_neg h, if_neg h]
    exact ⟨rfl, fun i _ => rfl⟩

/-- The body run against the flipped processor yields the same record up to the
raw word `Flags`. -/
theorem Identify_body_flip (cpu : CpuidOracle) (c : x86capabilities) :
    ∃ F, Identify_body (flipFlagsBit7 cpu) c = setFlags F (Identify_body cpu c) := by
  have hv : Identify_vendor (flipFlagsBit7 cpu) = Identify_vendor cpu := rfl
  have h7 : Identify_leaf7 (flipFlagsBit7 cpu) = Identify_leaf7 cpu := rfl
  have he : Identify_extended (flipFlagsBit7 cpu) = Identify_extended cpu := rfl
  have hf : Identify_familyName (flipFlagsBit7 cpu) = Identify_familyName cpu := rfl
  have h0 : (flipFlagsBit7 cpu).cpuid 0 = cpu.cpuid 0 := rfl
  obtain ⟨hrec, hbits⟩ := Identify_leaf1_flip cpu (toU32 (cpu.cpuid 0).eax)
    (Identify_vendor cpu { c with isIdentified := true })
  generalize (Identify_leaf1 (flipFlagsBit7 cpu) (toU32 (cpu.cpuid 0).eax)
    (Identify_vendor cpu { c with isIdentified := true })).Flags = F at hrec hbits
  refine ⟨F, ?_⟩
  simp only [Identify_body]
  rw [hv, h7, he, hf, h0, hrec, Identify_leaf7_setFlags, Identify_extended_setFlags,
    Identify_familyName_setFlags]
  rw [Identify_flagsLow_setFlags]
  · rw [Identify_flagsHigh_setFlags]
    · rw [Identify_flags2_setFlags, Identify_osxsave_setFlags, Identify_tail_setFlags]
      rfl
    · intro i hi
      simp only [Identify_flagsLow_frame, Identify_familyName_frame, Identify_extended_frame,
        Identify_leaf7_frame]
      exact hbits i hi
  · intro i hi
    simp only [Identify_familyName_frame, Identify_extended_frame, Identify_leaf7_frame]
    exact hbits i hi

theorem Identify_flagsLow_machineCheck (c : x86capabilities) :
    (Identify_flagsLow c).hasMachineCheckArchitecture = c.Flags.testBit 14 :=
  shiftRight_testBit_zero c.Flags 14

/-- After the body, `hasMachineCheckArchitecture` is bit 14 of `Flags`. -/
theorem Identify_body_machineCheck (cpu : CpuidOracle) (c : x86capabilities) :
    (Identify_body cpu c).hasMachineCheckArchitecture = (Identify_body cpu c).Flags.testBit 14 := by
  simp only [Identify_body, Identify_tail_frame, Identify_osxsave_frame, Identify_flags2_frame,
    Identify_flagsHigh_frame, Identify_flagsLow_machineCheck, Identify_flagsLow_frame]

/-- C24: after `Identify` on a fresh record `hasMachineCheckArchitecture` is bit
14 of `Flags`; and against a processor whose leaf-1 EDX differs in bit 7 only,
`Identify` yields the same flag and the same record apart from the word
`Flags`. -/
theorem Identify_machine_check_bit (cpu : CpuidOracle) (mxcsr : Nat) :
    ((x86capabilities.ctor mxcsr).Identify cpu).hasMachineCheckArchitecture
        = ((x86capabilities.ctor mxcsr).Identify cpu).Flags.testBit 14 ∧
      ((x86capabilities.ctor mxcsr).Identify (flipFlagsBit7 cpu)).hasMachineCheckArchitecture
        = ((x86capabilities.ctor mxcsr).Identify cpu).hasMachineCheckArchitecture ∧
      setFlags ((x86capabilities.ctor mxcsr).Identify (flipFlagsBit7 cpu)).Flags
          ((x86capabilities.ctor mxcsr).Identify cpu)
        = (x86capabilities.ctor mxcsr).Identify (flipFlagsBit7 cpu) := by
  rw [Identify_of_not_identified cpu _ rfl, Identify_of_not_identified (flipFlagsBit7 cpu) _ rfl]
  obtain ⟨F, hF⟩ := Identify_body_flip cpu (x86capabilities.ctor mxcsr)
  refine ⟨Identify_body_machineCheck cpu _, ?_, ?_⟩
  · rw [hF]; rfl
  · rw [hF]; rfl

set_option maxRecDepth 100000 in
/-- On `intelCpu` bit 7 of `Flags` is clear, on the flipped processor it is set;
bit 14 is clear on both and so is `hasMachineCheckArchitecture`. -/
theorem Identify_machine_check_example :
    ((x86capabilities.ctor 0).Identify intelCpu).Flags = 0x06000000 ∧
      ((x86capabilities.ctor 0).Identify (flipFlagsBit7 intelCpu)).Flags = 0x06000080 ∧
      ((x86capabilities.ctor 0).Identify (flipFlagsBit7 intelCpu)).Flags.testBit 7 = true ∧
      ((x86capabilities.ctor 0).Identify (flipFlagsBit7 intelCpu)).hasMachineCheckArchitecture
        = false ∧
      ((x86capabilities.ctor 0).Identify intelCpu).hasMachineCheckArchitecture = false := by
  decide

end Pcsx2
